import Mathlib

/-
Verification development for the dreamberd-py interpreter core
(`src/tokens.py`, `src/ast/ast.py`, `src/ast/parser.py`,
`src/interpreter/value.py`, `src/interpreter/scope.py`,
`src/interpreter/function.py`, `src/interpreter/interpreter.py`).

The runtime value model, the scope/binding model and the evaluator are
shallowly embedded below.  Python's mutable heap objects (`Variable`,
`Scope`, `Class`, `Coroutine`) are represented by arenas indexed by `Nat`
identifiers held in the interpreter state, so that object identity
(`is` comparisons, shared mutation through export tables and value
back-references) is the identity of arena indices.  Source spans carry no
semantic weight (they feed diagnostics only) and are dropped; a fatal
`errors.error(span, msg)` call is modelled as `Except.error (Err.fatal msg)`
carrying the message (dynamic parts of f-string messages are concatenated,
apostrophes in message text are dropped), and a Python-level exception that
is not routed through `errors.error` (an `AttributeError`, `IndexError`,
`TypeError` or `ValueError`) is modelled as `Err.pyExc`.
-/

namespace DB

/-- The `TokenType` from `src/tokens.py` (the members the parser can place in a
`BinaryOpExpr`/`UnaryOpExpr` and that the evaluator inspects). -/
inductive TokenType where
  | Plus | Minus | Mul | Div
  | Assign | Eq | TripleEq | QuadEq | QuintEq
  | NAssign | NEq | NTripleEq | NQuadEq
  | SemiColon
  deriving DecidableEq, Repr

/-- The `VariableType` from `src/ast/ast.py`. -/
inductive VariableType where
  | VarVar | VarConst | ConstVar | ConstConst | ConstConstConst
  deriving DecidableEq, Repr

/-- The `ValueType` from `src/interpreter/value.py`.

The `Coroutine` member is **modelled from the spec** (spec section 3 lists
`coroutine` among the runtime value kinds): `interpreter.py` line 202 and
`function.py` line 60 both reference `ValueType.Coroutine`, but the
`ValueType` enum in the captured `value.py` stops at `Function`. -/
inductive ValueType where
  | Int | Float | String | Char | Digit | Bool | Null | Undefined
  | Array | Dict | Object | Function | Coroutine
  deriving DecidableEq, Repr

/-- The `ArrayType` from `src/interpreter/value.py`. -/
inductive ArrayType where
  | String | Int | Any
  deriving DecidableEq, Repr

/-- The three-valued `Bool` enum of `src/interpreter/value.py`
(`false = 0`, `true = 1`, `maybe = 2`); named `Bool3` here because `Bool`
would clash with Lean's builtin type. -/
inductive Bool3 where
  | false | true | maybe
  deriving DecidableEq, Repr

/-- The integer value of the `Bool` IntEnum member. -/
def Bool3.toInt : Bool3 → Int
  | .false => 0
  | .true => 1
  | .maybe => 2

/-- The `Bool(b)` applied to a Python boolean. -/
def Bool3.ofBool : Bool → Bool3
  | Bool.true => .true
  | Bool.false => .false

set_option maxHeartbeats 4000000

set_option synthInstance.maxHeartbeats 400000

/-- The AST node variants of `src/ast/ast.py` that the evaluator subset
modelled here dispatches on, flattened into one inductive (the source uses
one Python class per variant; the per-node `extras['boldness']` annotation
of a variable definition is inlined as the `boldness` field).

The variants `NewlineExpr`, `ClassExpr`, `NewExpr` and `AttributeExpr` are
constructed by `parser.py` and consumed by `interpreter.py` but their class
definitions are not among the captured sources (they live in the package's
`__init__` module, which is missing); their fields follow spec section 3
and the constructor calls in `parser.py`.

`FunctionExpr`: `ast.py`'s class stores `body` as either a single
expression or a statement list and (as captured) lacks the `is_async`
field that both `parser.py` and `interpreter.py` use; the flag is modelled
from the spec (section 3: "function-definition (..., is-async flag)").  The
body is normalised here to a list plus the `isSingleExpr` flag exactly as
`visit_FunctionExpr` does (`body if isinstance(expr.body, list) else
[expr.body]`).  `ExportExpr`'s target-file field is named `to` in the
source (a reserved token in Lean, hence `toFile`); likewise
`AttributeExpr.attribute` is `attr` here. -/
inductive Expr where
  | IntegerExpr (value : Int)
  | StringExpr (value : String)
  | ArrayExpr (values : List Expr)
  | IndexExpr (value : Expr) (index : Expr)
  | BinaryOpExpr (lhs : Expr) (rhs : Expr) (op : TokenType)
  | UnaryOpExpr (expr : Expr) (op : TokenType)
  | IdentifierExpr (name : String)
  | VariableExpr (name : String) (value : Expr) (type : VariableType)
      (boldness : Int)
  | FunctionExpr (name : String) (args : List String) (body : List Expr)
      (isSingleExpr : Bool) (isAsync : Bool)
  | ReturnExpr (value : Expr)
  | CallExpr (callee : Expr) (args : List Expr)
  | PreviousExpr (expr : Expr)
  | WhenExpr (condition : Expr) (body : List Expr)
  | ExportExpr (symbol : String) (toFile : String)
  | ImportExpr (symbol : String)
  | NewlineExpr
  | ClassExpr (name : String) (body : List Expr)
  | NewExpr (name : String) (args : List Expr)
  | AttributeExpr (value : Expr) (attr : String)
  deriving BEq, Repr

/-- The `Function` named tuple from `src/interpreter/function.py` (named
`Func` here; Lean's root `Function` namespace is pervasive). -/
structure Func where
  name : String
  args : List String
  body : List Expr
  is_single_expr : Bool
  is_async : Bool
  deriving BEq, Repr

mutual
/-- The `Value` from `src/interpreter/value.py`: a runtime value is a payload
(`self.value`), a type tag (`self.type`) and an optional back-reference
(`self.ref`) to the `Variable` it was materialized from.  The reference is
an index into the interpreter's variable arena. -/
inductive Value where
  | mk (type : ValueType) (payload : Payload) (ref : Option Nat)

/-- The raw Python object stored in `Value.value`.  Arrays carry the
`Array` object's `values` dict as an association list from (integer) index
to element together with the array's element type tag; dictionaries carry
the `Dictionary.values` dict keyed by the key value's payload.  Array
indices are restricted to the integer case (Python also allows float keys,
which hash equal to equal integers; no modelled program uses them).
`Array`/`Dictionary` objects are modelled immutably (the in-place
index-assignment branch of `visit_BinaryOpExpr` is outside the modelled
subset).  `pFunc` carries the immutable `Function` named tuple inline;
`pBuiltin` a `BuiltinFunction` by name; `pObject` a `ClassInstance` as the
index of its `Class` in the class arena; `pCoroutine` the index of the
coroutine object in the coroutine arena. -/
inductive Payload where
  | pInt (n : Int)
  | pStr (s : String)
  | pBool (b : Bool3)
  | pNone
  | pArr (type : ArrayType) (values : List (Int × Value))
  | pDict (values : List (Payload × Value))
  | pFunc (fn : Func)
  | pBuiltin (name : String)
  | pObject (clsId : Nat)
  | pCoroutine (coId : Nat)
end

/-- Projections for `Value.mk` (the source's attribute reads). -/
def Value.type : Value → ValueType
  | .mk t _ _ => t

def Value.payload : Value → Payload
  | .mk _ p _ => p

def Value.ref : Value → Option Nat
  | .mk _ _ r => r

/-- The `Value.undefined()`. -/
def Value.undefined : Value := .mk .Undefined .pNone none

/-- The `Value.null()`. -/
def Value.null : Value := .mk .Null .pNone none

/-- First-match association-list lookup over integer keys
(Python `dict.get` on the `Array.values` dict). -/
def lookupArr (k : Int) : List (Int × Value) → Option Value
  | [] => none
  | (k', v) :: rest => if k = k' then some v else lookupArr k rest

mutual
/-- The recursive core of Python `==` between two `Value.value` payloads.
Python int/IntEnum cross-comparisons compare numerically; `None == None`
is true; values of unrelated kinds compare unequal.  `Array.__eq__`
compares the `values` dicts (same key set, equal entries) and the element
type tag; `Dictionary.__eq__` compares the `values` dicts.  Functions are
compared field-wise (Python compares the body statement lists elementwise
by node object identity; structurally here — structurally equal distinct
node objects never arise in the modelled programs).  The dict-style
lookups force well-founded recursion, so the non-recursive entry point
`pyEqP` below repeats the scalar arms to keep them definitionally
reducible (`pyEqP_eq_deep` proves the two agree). -/
def pyEqPDeep : Payload → Payload → Bool
  | .pArr ty1 vs1, .pArr ty2 vs2 =>
      ty1 == ty2 && vs1.length == vs2.length && pyEqEntries vs1 vs2
  | .pDict vs1, .pDict vs2 =>
      vs1.length == vs2.length && pyEqDictEntries vs1 vs2
  | .pInt a, .pInt b => a == b
  | .pInt a, .pBool b => a == b.toInt
  | .pBool a, .pInt b => a.toInt == b
  | .pBool a, .pBool b => a == b
  | .pStr a, .pStr b => a == b
  | .pNone, .pNone => Bool.true
  | .pFunc f1, .pFunc f2 => f1 == f2
  | .pBuiltin n1, .pBuiltin n2 => n1 == n2
  | .pObject c1, .pObject c2 => c1 == c2
  | .pCoroutine c1, .pCoroutine c2 => c1 == c2
  | _, _ => Bool.false

/-- The `Value.__eq__` (`self.value == other.value and self.type == other.type`);
also the entry comparison inside Python's dict `==`. -/
def pyEqV : Value → Value → Bool
  | .mk t1 p1 _, .mk t2 p2 _ => pyEqPDeep p1 p2 && t1 == t2

/-- Dict equality direction check: every entry of the first dict is
present and equal in the second (with the length check in `pyEqPDeep` this
is Python's dict `==`; keys are unique by construction). -/
def pyEqEntries : List (Int × Value) → List (Int × Value) → Bool
  | [], _ => Bool.true
  | (k, v) :: rest, vs2 =>
      (match lookupArr k vs2 with
       | none => Bool.false
       | some w => pyEqV v w) && pyEqEntries rest vs2

def pyEqDictEntries : List (Payload × Value) → List (Payload × Value) → Bool
  | [], _ => Bool.true
  | (k, v) :: rest, vs2 =>
      (match pyDictLookup k vs2 with
       | none => Bool.false
       | some w => pyEqV v w) && pyEqDictEntries rest vs2

/-- Python dict lookup keyed by `==` on the (hashable scalar) key payload. -/
def pyDictLookup : Payload → List (Payload × Value) → Option Value
  | _, [] => none
  | k, (k', v) :: rest =>
      if pyEqPDeep k k' then some v else pyDictLookup k rest
end

/-- Python `==` between two payloads — the comparison the interpreter
performs in `Interpreter.cmp` and `is_deleted_value`.  This entry point
dispatches the container payloads to `pyEqPDeep` and repeats its scalar
arms verbatim (see the comment there). -/
def pyEqP : Payload → Payload → Bool
  | .pArr ty1 vs1, .pArr ty2 vs2 => pyEqPDeep (.pArr ty1 vs1) (.pArr ty2 vs2)
  | .pDict vs1, .pDict vs2 => pyEqPDeep (.pDict vs1) (.pDict vs2)
  | .pInt a, .pInt b => a == b
  | .pInt a, .pBool b => a == b.toInt
  | .pBool a, .pInt b => a.toInt == b
  | .pBool a, .pBool b => a == b
  | .pStr a, .pStr b => a == b
  | .pNone, .pNone => Bool.true
  | .pFunc f1, .pFunc f2 => f1 == f2
  | .pBuiltin n1, .pBuiltin n2 => n1 == n2
  | .pObject c1, .pObject c2 => c1 == c2
  | .pCoroutine c1, .pCoroutine c2 => c1 == c2
  | _, _ => Bool.false

/-- The two payload-equality presentations agree. -/
theorem pyEqP_eq_deep (p q : Payload) : pyEqP p q = pyEqPDeep p q := by
  cases p <;> cases q <;> simp [pyEqP, pyEqPDeep]

/-- The `WhenMutated` from `src/interpreter/scope.py`: the condition expression
and body installed on a binding by a `when` statement. -/
structure WhenMutated where
  condition : Expr
  body : List Expr

/-- The `Variable` from `src/interpreter/scope.py` — a binding.  Its
constructor initialises `previous` to the initial value and
`when_mutated` to `None`; see `Variable.make`. -/
structure Variable where
  name : String
  value : Value
  boldness : Int
  type : VariableType
  previous : Value
  when_mutated : Option WhenMutated

/-- The `Variable.__init__`. -/
def Variable.make (name : String) (value : Value) (boldness : Int)
    (type : VariableType) : Variable :=
  ⟨name, value, boldness, type, value, none⟩

/-- The `Class` from `src/interpreter/scope.py`: name, captured scope (arena
index) and the single-instance guard flag. -/
structure Class where
  name : String
  scope : Nat
  has_instance : Bool

/-- The `Coroutine` from `src/interpreter/function.py`: the queue of remaining
body statements, the result slot, the skip-first-boundary flag and the
optional back-reference (arena index) to the binding that receives the
result. -/
structure Coroutine where
  body : List Expr
  result : Option Value
  skip_current_newline : Bool
  store : Option Nat

/-- The `Coroutine.__init__`. -/
def Coroutine.make (body : List Expr) : Coroutine :=
  ⟨body, none, Bool.true, none⟩

/-- The `Scope` from `src/interpreter/scope.py`.  The variable map holds arena
indices of `Variable` objects and the class map arena indices of `Class`
objects (both are mutable, shared Python objects); `Function` named tuples
are immutable and stored by value.  Maps are insertion-ordered association
lists updated in place (`updateAssoc`), like Python dicts.  The `variables`
field is named `vars` (`variables` is a reserved token in Lean). -/
structure Scope where
  parent : Option Nat
  vars : List (String × Nat)
  functions : List (String × Func)
  classes : List (String × Nat)
  return_value : Option Value

/-- The `Scope.__init__`. -/
def Scope.make (parent : Option Nat) : Scope := ⟨parent, [], [], [], none⟩

/-- An entry of the process-wide export table
(`Interpreter.exports[to][name]`): the looked-up symbol object, which is a
`Variable`, a `Function` or a `Class`. -/
inductive ExportEntry where
  | var (id : Nat)
  | func (fn : Func)
  | cls (id : Nat)

/-- Association-list lookup (Python `dict.get` / `in` + indexing on
string-keyed dicts). -/
def lookupAssoc {β : Type} (k : String) : List (String × β) → Option β
  | [] => none
  | (k', v) :: rest => if k = k' then some v else lookupAssoc k rest

/-- Association-list insert-or-update (Python dict item assignment: an
existing key keeps its position, a new key is appended). -/
def updateAssoc {β : Type} (k : String) (v : β) :
    List (String × β) → List (String × β)
  | [] => [(k, v)]
  | (k', v') :: rest =>
      if k = k' then (k, v) :: rest else (k', v') :: updateAssoc k v rest

/-- The interpreter-wide state (`Interpreter.__init__` plus the object
arenas standing in for Python's heap).  `files` (diagnostic bookkeeping of
`visit_NewFileExpr`) is dropped; the `ast` field is used only by
`visit_ReverseExpr`, which is outside the modelled subset. -/
structure Interp where
  scope : Nat
  filename : String
  scopes : List Scope
  vars : List Variable
  classes : List Class
  coros : List Coroutine
  coroutines : List Nat
  exports : List (String × List (String × ExportEntry))
  deleted_values : List Value

/-- The `Interpreter.__init__(filename, ast)`: a fresh root scope, empty
tables. -/
def Interp.init (filename : String) : Interp :=
  ⟨0, filename, [Scope.make none], [], [], [], [], [], []⟩

/-- Replace the arena entry at an index (mutation of the Python object the
index stands for). -/
def setAt {β : Type} : List β → Nat → β → List β
  | [], _, _ => []
  | _ :: rest, 0, b => b :: rest
  | x :: rest, n + 1, b => x :: setAt rest n b

/-- The `Scope.get_variable`: search the own map, then the parent chain.  The
chain is walked with fuel (parent arena indices are always smaller than
the child's in every reachable state, so `s.scopes.length` steps
suffice). -/
def getVariableAux (s : Interp) : Nat → Nat → String → Option Nat
  | 0, _, _ => none
  | fuel + 1, scopeId, name =>
    match s.scopes.get? scopeId with
    | none => none
    | some sc =>
      match lookupAssoc name sc.vars with
      | some vid => some vid
      | none =>
        match sc.parent with
        | none => none
        | some p => getVariableAux s fuel p name

def getVariable (s : Interp) (scopeId : Nat) (name : String) : Option Nat :=
  getVariableAux s s.scopes.length scopeId name

/-- The `Scope.get_function`. -/
def getFunctionAux (s : Interp) : Nat → Nat → String → Option Func
  | 0, _, _ => none
  | fuel + 1, scopeId, name =>
    match s.scopes.get? scopeId with
    | none => none
    | some sc =>
      match lookupAssoc name sc.functions with
      | some fn => some fn
      | none =>
        match sc.parent with
        | none => none
        | some p => getFunctionAux s fuel p name

def getFunction (s : Interp) (scopeId : Nat) (name : String) : Option Func :=
  getFunctionAux s s.scopes.length scopeId name

/-- The `Scope.get_class`. -/
def getClassAux (s : Interp) : Nat → Nat → String → Option Nat
  | 0, _, _ => none
  | fuel + 1, scopeId, name =>
    match s.scopes.get? scopeId with
    | none => none
    | some sc =>
      match lookupAssoc name sc.classes with
      | some cid => some cid
      | none =>
        match sc.parent with
        | none => none
        | some p => getClassAux s fuel p name

def getClass (s : Interp) (scopeId : Nat) (name : String) : Option Nat :=
  getClassAux s s.scopes.length scopeId name

/-- The `Value.with_ref(ref)`: copy the binding's current value and type, and
set the back-reference to the binding. -/
def Value.with_ref (id : Nat) (v : Variable) : Value :=
  .mk v.value.type v.value.payload (some id)

/-- Evaluation outcomes.  `fatal` is a call to `errors.error` (which prints
the diagnostic and exits the process); `pyExc` is an uncaught Python-level
exception; `fuel` is exhaustion of the step budget of the fueled evaluator
(the source may simply not terminate). -/
inductive Err where
  | fatal (msg : String)
  | pyExc (msg : String)
  | fuel
  deriving DecidableEq, Repr

/-- The `EQ_TYPES` from `src/ast/parser.py`
(`(TokenType.Assign, *EQ_TYPE_DEPTH)` with `EQ_TYPE_DEPTH` from
`src/lexer.py`). -/
def EQ_TYPES : List TokenType :=
  [.Assign, .Eq, .TripleEq, .QuadEq, .QuintEq]

/-- The `NEQ_TYPES_TO_EQ` from `src/ast/parser.py` (queried only at its four
keys; identity elsewhere). -/
def NEQ_TYPES_TO_EQ : TokenType → TokenType
  | .NAssign => .Assign
  | .NEq => .Eq
  | .NTripleEq => .TripleEq
  | .NQuadEq => .QuadEq
  | t => t

/-- The `INTEGER_TYPES` from `src/interpreter/interpreter.py`. -/
def INTEGER_TYPES : List ValueType := [.Int, .Digit, .Float]

/-- The tier-1 coercion `type(lhs.value)(rhs.value)` of `Interpreter.cmp`,
best-effort over the scalar payload kinds (`int(...)`, `str(...)`,
`Bool(...)`); `none` stands for the Python exceptions these constructors
can raise (and for the non-scalar payload kinds, which no verified claim
exercises). -/
def pyCast : Payload → Payload → Option Payload
  | .pInt _, .pInt n => some (.pInt n)
  | .pInt _, .pBool b => some (.pInt b.toInt)
  | .pInt _, .pStr st => (st.toInt?).map .pInt
  | .pStr _, .pInt n => some (.pStr (toString n))
  | .pStr _, .pStr st => some (.pStr st)
  | .pBool _, .pInt n =>
      if n = 0 then some (.pBool .false)
      else if n = 1 then some (.pBool .true)
      else if n = 2 then some (.pBool .maybe)
      else none
  | _, _ => none

/-- The `Interpreter.cmp`: the four comparison tiers.  Tier 1 (`=`, `==`)
coerces the right payload to the left payload's Python type and compares;
tier 2 (`===`) requires the same declared type, then compares payloads;
the final branch (`====`, and any other member of `EQ_TYPES`) compares
binding back-references by object identity when the left operand carries
one, and falls back to type-plus-payload equality when it does not.  The
tier-1 in-place write `rhs.value = ...` only mutates the transient rhs
value object and is modelled functionally. -/
def cmp (lhs : Value) (op : TokenType) (rhs : Value) : Except Err Bool3 :=
  if op = .Assign ∨ op = .Eq then
    if lhs.type ≠ rhs.type then
      match pyCast lhs.payload rhs.payload with
      | none => .error (.pyExc "tier-1 coercion failed")
      | some p => .ok (Bool3.ofBool (pyEqP lhs.payload p))
    else .ok (Bool3.ofBool (pyEqP lhs.payload rhs.payload))
  else if op = .TripleEq then
    if lhs.type ≠ rhs.type then .ok .false
    else .ok (Bool3.ofBool (pyEqP lhs.payload rhs.payload))
  else
    match lhs.ref with
    | some i =>
      match rhs.ref with
      | none => .ok .false
      | some j => .ok (Bool3.ofBool (i == j))
    | none =>
      if lhs.type ≠ rhs.type then .ok .false
      else .ok (Bool3.ofBool (pyEqP lhs.payload rhs.payload))

/-- Python truthiness of a payload (`not value.value` in
`visit_UnaryOpExpr`; `Array`/`Dictionary` define `__len__`). -/
def pyTruthy : Payload → Bool
  | .pInt n => n != 0
  | .pBool b => b != .false
  | .pStr st => st.length != 0
  | .pNone => Bool.false
  | .pArr _ vs => vs.length != 0
  | .pDict vs => vs.length != 0
  | _ => Bool.true

/-- The `lhs.value + rhs.value` for the integer payloads the type-checked
arithmetic branches can see (`none` marks payload combinations that cannot
arise under the `INTEGER_TYPES` tag check; floats are outside the modelled
subset). -/
def pyAdd : Payload → Payload → Option Payload
  | .pInt a, .pInt b => some (.pInt (a + b))
  | _, _ => none

def pySub : Payload → Payload → Option Payload
  | .pInt a, .pInt b => some (.pInt (a - b))
  | _, _ => none

def pyMul : Payload → Payload → Option Payload
  | .pInt a, .pInt b => some (.pInt (a * b))
  | _, _ => none

/-- The `lhs.value // rhs.value`: Python `//` on integers is floor division
(`Int.fdiv`). -/
def pyFloorDiv : Payload → Payload → Option Payload
  | .pInt a, .pInt b => some (.pInt (Int.fdiv a b))
  | _, _ => none

/-- The `-value.value` (`visit_UnaryOpExpr`); negating a `Bool` IntEnum member
yields its negated integer value. -/
def pyNeg : Payload → Option Payload
  | .pInt n => some (.pInt (-n))
  | .pBool b => some (.pInt (-(b.toInt)))
  | _ => none

/-- The arithmetic/comparison chain of `visit_BinaryOpExpr` (lines
284-317): type-check both operands against `INTEGER_TYPES` for `+ - * /`,
short-circuit division by zero to `Undefined`, wrap comparison results as
`Bool`-typed values, and tag arithmetic results with the left operand's
type (`Value(result, ty or lhs.type)`). -/
def binaryOpResult (op : TokenType) (lhs rhs : Value) : Except Err Value :=
  if op = .Plus then
    if lhs.type ∉ INTEGER_TYPES ∨ rhs.type ∉ INTEGER_TYPES then
      .error (.fatal "Cannot add non-integer value")
    else
      match pyAdd lhs.payload rhs.payload with
      | none => .error (.pyExc "unsupported operand payloads")
      | some p => .ok (.mk lhs.type p none)
  else if op = .Minus then
    if lhs.type ∉ INTEGER_TYPES ∨ rhs.type ∉ INTEGER_TYPES then
      .error (.fatal "Cannot substract non-integer value")
    else
      match pySub lhs.payload rhs.payload with
      | none => .error (.pyExc "unsupported operand payloads")
      | some p => .ok (.mk lhs.type p none)
  else if op = .Mul then
    if lhs.type ∉ INTEGER_TYPES ∨ rhs.type ∉ INTEGER_TYPES then
      .error (.fatal "Cannot multiply non-integer value")
    else
      match pyMul lhs.payload rhs.payload with
      | none => .error (.pyExc "unsupported operand payloads")
      | some p => .ok (.mk lhs.type p none)
  else if op = .Div then
    if lhs.type ∉ INTEGER_TYPES ∨ rhs.type ∉ INTEGER_TYPES then
      .error (.fatal "Cannot divide non-integer value")
    else if pyEqP rhs.payload (.pInt 0) then .ok Value.undefined
    else
      match pyFloorDiv lhs.payload rhs.payload with
      | none => .error (.pyExc "unsupported operand payloads")
      | some p => .ok (.mk lhs.type p none)
  else if op ∈ EQ_TYPES then do
    let r ← cmp lhs op rhs
    .ok (.mk .Bool (.pBool r) none)
  else if op ∈ ([.NAssign, .NEq, .NTripleEq, .NQuadEq] : List TokenType) then do
    let r ← cmp lhs (NEQ_TYPES_TO_EQ op) rhs
    .ok (.mk .Bool (.pBool (Bool3.ofBool (r.toInt == 0))) none)
  else .error (.pyExc "Unknown binary operator")

/-- The `Array.__init__`'s index assignment
`{i - 1: value for i, value in enumerate(values)}`, generalised over the
starting index. -/
def enumFrom (i : Int) : List Value → List (Int × Value)
  | [] => []
  | v :: rest => (i, v) :: enumFrom (i + 1) rest

/-- The `Array.__init__(values)`: the first element lands at index `-1`. -/
def arrayInit (vs : List Value) : List (Int × Value) := enumFrom (-1) vs

/-- The `Array.process(value)`: re-tag an element on read according to the
array's element-kind tag (`VALUE_TYPE_MAP`).  The source mutates the
element's `type` in place; modelled as returning a re-tagged copy (the
write is idempotent and the re-tagged arrays built by `from_str`/`from_int`
are transient, so no difference is observable in the modelled subset). -/
def arrayProcess (ty : ArrayType) (v : Value) : Value :=
  match ty with
  | .Any => v
  | .String => .mk .Char v.payload v.ref
  | .Int => .mk .Digit v.payload v.ref

/-- The `Array.at(index)` followed by `process`: a missing index yields
`Undefined` (the stored `Value` objects are always truthy, so
`if not value` is exactly the `None` check). -/
def arrayAt (ty : ArrayType) (values : List (Int × Value)) (idx : Int) :
    Value :=
  match lookupArr idx values with
  | none => Value.undefined
  | some v => arrayProcess ty v

/-- The `Array.from_str`: one `String`-typed value per character, with the
array tagged `ArrayType.String`. -/
def arrayFromStr (st : String) : List (Int × Value) :=
  arrayInit (st.data.map fun c => .mk .String (.pStr (String.mk [c])) none)

/-- The `Array.from_int`: one `Int`-typed value per decimal digit of
`str(integer)`, with the array tagged `ArrayType.Int`.  For a negative
integer `int('-')` raises a `ValueError`. -/
def arrayFromInt (n : Int) : Except Err (List (Int × Value)) :=
  if n < 0 then .error (.pyExc "ValueError on the minus sign")
  else
    .ok (arrayInit ((Nat.toDigits 10 n.toNat).map fun c =>
      .mk .Int (.pInt ((c.toNat - 48 : Nat) : Int)) none))

/-- The `Dictionary.at(key)` (Python `dict.get` keyed by the key value's
payload; a missing key yields `Undefined`). -/
def dictAt (values : List (Payload × Value)) (key : Value) : Value :=
  match pyDictLookup key.payload values with
  | none => Value.undefined
  | some v => v

/-- The bounds check of `visit_IndexExpr`
(`idx < -len(arr.value) or idx >= len(arr.value)`). -/
def indexOutOfBounds (len : Nat) (idx : Int) : Bool :=
  decide (idx < -(len : Int)) || decide ((len : Int) ≤ idx)

/-- The `SPECIAL_VALUES` from `src/interpreter/value.py`. -/
def SPECIAL_VALUES : List (String × Value) :=
  [("true", .mk .Bool (.pBool .true) none),
   ("false", .mk .Bool (.pBool .false) none),
   ("maybe", .mk .Bool (.pBool .maybe) none),
   ("null", Value.null),
   ("undefined", Value.undefined)]

/-- The names of `ALL_BUILTINS` from `src/interpreter/function.py`
(`print` is the only registered builtin). -/
def ALL_BUILTINS : List String := ["print"]

/-- The `Interpreter.is_deleted_value`: content-plus-type comparison against
the deleted-value set. -/
def is_deleted_value (s : Interp) (v : Value) : Bool :=
  s.deleted_values.any fun dv => pyEqP dv.payload v.payload && dv.type == v.type

/-- The `Interpreter.validate`: convert a deleted value into a fatal error
(the source message interpolates the value; the dynamic part is
dropped). -/
def validate (s : Interp) (v : Value) : Except Err (Value × Interp) :=
  if is_deleted_value s v then .error (.fatal "has been deleted")
  else .ok (v, s)

/-- The `Interpreter.export_symbol`:
`self.exports.setdefault(to, {})[name] = symbol`. -/
def exportSymbol (s : Interp) (entry : ExportEntry) (name : String)
    (toF : String) : Interp :=
  let tbl := (lookupAssoc toF s.exports).getD []
  { s with exports := updateAssoc toF (updateAssoc name entry tbl) s.exports }

/-- The `isinstance(expr, IndexExpr)` (the test guarding the index-assignment
branch of `visit_BinaryOpExpr`). -/
def isIndexExpr : Expr → Bool
  | .IndexExpr _ _ => Bool.true
  | _ => Bool.false

/-- The `list.remove` on the coroutine queue (first occurrence). -/
def removeFirst (x : Nat) : List Nat → List Nat
  | [] => []
  | y :: rest => if y = x then rest else y :: removeFirst x rest

/-- The tail of `visit_VariableExpr` past the boldness gate and the
coroutine unwrapping: allocate the new `Variable`, point the unwrapped
coroutine's `store` back-reference at it, and bind it in the current
scope's own map. -/
def defineVariableCore (s₁ : Interp) (name : String) (ty : VariableType)
    (boldness : Int) (value : Value) (coro : Option Nat) :
    Except Err (Value × Interp) :=
  let vid := s₁.vars.length
  let s₂ := { s₁ with vars := s₁.vars ++ [Variable.make name value boldness ty] }
  let s₃ :=
    match coro with
    | some cid =>
      (match s₂.coros.get? cid with
      | some c => { s₂ with coros := setAt s₂.coros cid ({ c with store := some vid }) }
      | none => s₂)
    | none => s₂
  match s₃.scopes.get? s₃.scope with
  | none => .error (.pyExc "invalid scope id")
  | some sc =>
    let sc' := { sc with vars := updateAssoc name vid sc.vars }
    .ok (Value.undefined,
      { s₃ with scopes := setAt s₃.scopes s₃.scope sc' })

/-- The positional parameter-binding loop of `Function.call`
(`for index, argument in enumerate(self.args): scope.variables[argument] =
Variable(argument, args[index], 0, VariableType.VarVar)`); running out of
call arguments is the source's `IndexError`, surplus call arguments are
ignored. -/
def bindParams (s : Interp) (scopeId : Nat) :
    List String → List Value → Except Err Interp
  | [], _ => .ok s
  | _ :: _, [] => .error (.pyExc "IndexError on a missing argument")
  | pname :: prest, v :: vrest =>
    let vid := s.vars.length
    let s₁ := { s with vars := s.vars ++ [Variable.make pname v 0 .VarVar] }
    match s₁.scopes.get? scopeId with
    | none => .error (.pyExc "invalid scope id")
    | some sc =>
      bindParams
        { s₁ with
          scopes := setAt s₁.scopes scopeId
            ({ sc with vars := updateAssoc pname vid sc.vars }) }
        scopeId prest vrest

mutual
/-- The `Interpreter.visit`: a `NewlineExpr` steps the pending coroutines and
yields `Undefined` without passing through `validate`; every other node is
dispatched to its `visit_<NodeKind>` method (`visitNode` below) and the
result is passed through `validate`.  Every function of this block takes a
step budget as its first argument (the source can recurse without bound);
each nested evaluation runs on the predecessor budget. -/
def visit : Nat → Interp → Expr → Except Err (Value × Interp)
  | 0, _, _ => .error .fuel
  | fuel + 1, s, e =>
    match e with
    | .NewlineExpr => do
        let s' ← execPendingGo fuel s s.coroutines
        .ok (Value.undefined, s')
    | _ => do
        let (v, s') ← visitNode fuel s e
        validate s' v

/-- The `visit_<NodeKind>` methods of `Interpreter`, one match arm per
node kind. -/
def visitNode : Nat → Interp → Expr → Except Err (Value × Interp)
  | 0, _, _ => .error .fuel
  | fuel + 1, s, e =>
    match e with
    | .NewlineExpr => .ok (Value.undefined, s)
    | .IntegerExpr n =>
        -- visit_IntegerExpr: only the current scope's own variable map is
        -- consulted (`str(expr.value) in self.scope.variables`)
        (match s.scopes.get? s.scope with
        | none => .error (.pyExc "invalid scope id")
        | some sc =>
          match lookupAssoc (toString n) sc.vars with
          | some vid =>
            (match s.vars.get? vid with
            | none => .error (.pyExc "invalid variable id")
            | some var => .ok (Value.with_ref vid var, s))
          | none => .ok (.mk .Int (.pInt n) none, s))
    | .StringExpr v => .ok (.mk .String (.pStr v) none, s)
    | .ArrayExpr es => do
        let (vs, s₁) ← visitArgs fuel s es
        .ok (.mk .Array (.pArr .Any (arrayInit vs)) none, s₁)
    | .IndexExpr ve ie => do
        let (value, s₁) ← visit fuel s ve
        let (index, s₂) ← visit fuel s₁ ie
        if value.type ∉ ([.Array, .String, .Int, .Dict] : List ValueType)
        then .error (.fatal "Cannot index value")
        else
          match value.payload with
          | .pDict entries => .ok (dictAt entries index, s₂)
          | _ =>
            if index.type ∉ ([.Int, .Digit, .Float] : List ValueType) then
              .error (.fatal "Cannot index with non-integer value")
            else do
              let (ty, values) ←
                match value.payload with
                | .pInt n => do
                    let l ← arrayFromInt n
                    pure (ArrayType.Int, l)
                | .pStr st => pure (ArrayType.String, arrayFromStr st)
                | .pArr ty vals => pure (ty, vals)
                | _ => .error (.pyExc "unexpected indexable payload")
              let idx ←
                match index.payload with
                | .pInt i => pure i
                | _ => .error (.pyExc "unsupported index payload")
              if indexOutOfBounds values.length idx then
                .error (.fatal "Array index out of bounds")
              else .ok (arrayAt ty values idx, s₂)
    | .BinaryOpExpr lhsE rhsE op =>
        -- the in-place index-assignment branch
        -- (`isinstance(expr.lhs, IndexExpr) and expr.op is Assign`)
        -- mutates Array/Dictionary objects and is outside the modelled
        -- subset
        (if isIndexExpr lhsE && op == .Assign then
            .error (.pyExc "index assignment: outside the modelled subset")
        else do
            let (lhs, s₁) ← visit fuel s lhsE
            let (rhs, s₂) ← visit fuel s₁ rhsE
            match lhs.ref, op with
            | some vid, .Assign => execAssign fuel s₂ vid rhs
            | _, _ => do
                let v ← binaryOpResult op lhs rhs
                .ok (v, s₂))
    | .UnaryOpExpr pe op => do
        let (v, s₁) ← visit fuel s pe
        if v.type ∉ ([.Int, .Digit, .Float, .Bool] : List ValueType) then
          .error (.fatal "Cannot use unary operator on non-integer value")
        else if op = .SemiColon then
          .ok (.mk .Bool (.pBool (Bool3.ofBool (!pyTruthy v.payload))) none,
            s₁)
        else if op = .Minus then
          match pyNeg v.payload with
          | some p => .ok (.mk .Int p none, s₁)
          | none => .error (.pyExc "unsupported operand payload")
        else .error (.pyExc "Unknown unary operator")
    | .IdentifierExpr name =>
        (match getVariable s s.scope name with
        | some vid =>
          (match s.vars.get? vid with
          | some var => .ok (Value.with_ref vid var, s)
          | none => .error (.pyExc "invalid variable id"))
        | none =>
          match getFunction s s.scope name with
          | some fn => .ok (.mk .Function (.pFunc fn) none, s)
          | none =>
            if name ∈ ALL_BUILTINS then
              .ok (.mk .Function (.pBuiltin name) none, s)
            else
              match lookupAssoc name SPECIAL_VALUES with
              | some v => .ok (v, s)
              | none => .ok (.mk .String (.pStr name) none, s))
    | .VariableExpr name valueE ty boldness =>
        -- visit_VariableExpr: the boldness gate ignores the redeclaration
        -- (without evaluating its value expression) only when the existing
        -- binding's boldness is strictly greater
        (match getVariable s s.scope name with
        | some vid =>
          (match s.vars.get? vid with
          | none => .error (.pyExc "invalid variable id")
          | some var =>
            if var.boldness > boldness then .ok (Value.undefined, s)
            else defineVariable fuel s name valueE ty boldness)
        | none => defineVariable fuel s name valueE ty boldness)
    | .FunctionExpr name args body isSingle isAsync =>
        let fn : Func := ⟨name, args, body, isSingle, isAsync⟩
        (match s.scopes.get? s.scope with
        | none => .error (.pyExc "invalid scope id")
        | some sc =>
          let sc' := { sc with functions := updateAssoc name fn sc.functions }
          .ok (.mk .Function (.pFunc fn) none,
            { s with scopes := setAt s.scopes s.scope sc' }))
    | .ReturnExpr ve => do
        let (v, s₁) ← visit fuel s ve
        (match s₁.scopes.get? s₁.scope with
        | none => .error (.pyExc "invalid scope id")
        | some sc =>
          let sc' := { sc with return_value := some v }
          .ok (Value.undefined,
            { s₁ with scopes := setAt s₁.scopes s₁.scope sc' }))
    | .CallExpr calleeE argEs => do
        let (callee, s₁) ← visit fuel s calleeE
        if callee.type ≠ .Function then
          .error (.fatal "Cannot call non-function value")
        else do
          let (args, s₂) ← visitArgs fuel s₁ argEs
          match callee.payload with
          | .pFunc fn => callFunc fuel s₂ fn args Bool.false
          | .pBuiltin _ =>
              -- BuiltinFunction.call: `print` writes to stdout (outside
              -- the model) and returns `Undefined`
              .ok (Value.undefined, s₂)
          | _ => .error (.pyExc "non-function payload under Function tag")
    | .PreviousExpr pe => do
        let (v, s₁) ← visit fuel s pe
        (match v.ref with
        | none => .ok (Value.undefined, s₁)
        | some vid =>
          match s₁.vars.get? vid with
          | some var => .ok (var.previous, s₁)
          | none => .error (.pyExc "invalid variable id"))
    | .WhenExpr cond body =>
        -- visit_WhenExpr: `cast(BinaryOpExpr, expr.condition)` then
        -- `cond.lhs` (an AttributeError on any other node kind)
        (match cond with
        | .BinaryOpExpr condLhs _ _ => do
            let (v, s₁) ← visit fuel s condLhs
            (match v.ref with
            | none => .error (.fatal "When condition must be a variable")
            | some vid =>
              match s₁.vars.get? vid with
              | some var =>
                let var' := { var with when_mutated := some ⟨cond, body⟩ }
                .ok (Value.undefined,
                  { s₁ with vars := setAt s₁.vars vid var' })
              | none => .error (.pyExc "invalid variable id"))
        | _ => .error (.pyExc "when condition is not a binary operation"))
    | .ExportExpr symbol toF =>
        (match getVariable s s.scope symbol with
        | some vid => .ok (Value.undefined, exportSymbol s (.var vid) symbol toF)
        | none =>
          match getFunction s s.scope symbol with
          | some fn => .ok (Value.undefined, exportSymbol s (.func fn) symbol toF)
          | none =>
            match getClass s s.scope symbol with
            | some cid =>
                .ok (Value.undefined, exportSymbol s (.cls cid) symbol toF)
            | none => .error (.fatal "Cannot export non-existent symbol"))
    | .ImportExpr symbol =>
        -- visit_ImportExpr: the export table of the *current* file
        (match lookupAssoc symbol ((lookupAssoc s.filename s.exports).getD []) with
        | none => .error (.fatal "Cannot import non-existent symbol")
        | some entry =>
          match s.scopes.get? s.scope with
          | none => .error (.pyExc "invalid scope id")
          | some sc =>
            match entry with
            | .var vid =>
              (match s.vars.get? vid with
              | some var =>
                let sc' := { sc with vars := updateAssoc var.name vid sc.vars }
                .ok (Value.undefined,
                  { s with scopes := setAt s.scopes s.scope sc' })
              | none => .error (.pyExc "invalid variable id"))
            | .func fn =>
                let sc' := { sc with functions := updateAssoc fn.name fn sc.functions }
                .ok (Value.undefined,
                  { s with scopes := setAt s.scopes s.scope sc' })
            | .cls cid =>
              (match s.classes.get? cid with
              | some cls =>
                let sc' := { sc with classes := updateAssoc cls.name cid sc.classes }
                .ok (Value.undefined,
                  { s with scopes := setAt s.scopes s.scope sc' })
              | none => .error (.pyExc "invalid class id")))
    | .ClassExpr name body => do
        -- visit_ClassExpr: `scope = Scope(self, self.scope)` then
        -- `with scope: ...` — `Scope.__enter__` does *not* switch the
        -- interpreter's current scope, so the body statements are
        -- evaluated while `self.scope` is still the enclosing scope;
        -- `Scope.__exit__` then sets `self.scope = scope.parent`
        let capturedId := s.scopes.length
        let s₁ := { s with scopes := s.scopes ++ [Scope.make (some s.scope)] }
        let s₂ ← visitList fuel s₁ body
        let s₃ :=
          match (s₂.scopes.get? capturedId).bind Scope.parent with
          | some p => { s₂ with scope := p }
          | none => s₂
        match s₃.scopes.get? s₃.scope with
        | none => .error (.pyExc "invalid scope id")
        | some sc =>
          let cid := s₃.classes.length
          let sc' := { sc with classes := updateAssoc name cid sc.classes }
          .ok (Value.undefined,
            { s₃ with
              classes := s₃.classes ++ [⟨name, capturedId, Bool.false⟩],
              scopes := setAt s₃.scopes s₃.scope sc' })
    | .NewExpr name _ =>
        -- visit_NewExpr: the constructor arguments are parsed but never
        -- evaluated by the source
        (match getClass s s.scope name with
        | none => .error (.fatal "Cannot instantiate non-existent class")
        | some cid =>
          match s.classes.get? cid with
          | none => .error (.pyExc "invalid class id")
          | some cls =>
            if cls.has_instance then
              .error (.fatal
                ("Cant have more than one " ++ cls.name ++ " instance!"))
            else
              let cls' := { cls with has_instance := Bool.true }
              .ok (.mk .Object (.pObject cid) none,
                { s with classes := setAt s.classes cid cls' }))
    | .AttributeExpr ve attr => do
        let (v, s₁) ← visit fuel s ve
        if v.type ≠ .Object then
          .error (.fatal "Cannot access attribute of non-object value")
        else
          match v.payload with
          | .pObject cid =>
            (match s₁.classes.get? cid with
            | none => .error (.pyExc "invalid class id")
            | some cls =>
              -- ClassInstance.getattr: resolve in the class's captured
              -- scope (which chains to its parent)
              match getVariable s₁ cls.scope attr with
              | some vid =>
                (match s₁.vars.get? vid with
                | some var => .ok (Value.with_ref vid var, s₁)
                | none => .error (.pyExc "invalid variable id"))
              | none =>
                match getFunction s₁ cls.scope attr with
                | some fn => .ok (.mk .Function (.pFunc fn) none, s₁)
                | none => .ok (Value.undefined, s₁))
          | _ => .error (.pyExc "non-object payload under Object tag")

/-- The tail of `visit_VariableExpr` past the boldness gate: evaluate the
value, unwrap an uninverted-async-call coroutine to its pending result
(`value.value.result or Value.undefined()`), then allocate and bind via
`defineVariableCore`. -/
def defineVariable : Nat → Interp → String → Expr → VariableType → Int →
    Except Err (Value × Interp)
  | 0, _, _, _, _, _ => .error .fuel
  | fuel + 1, s, name, valueE, ty, boldness => do
    let (value₀, s₁) ← visit fuel s valueE
    if value₀.type = .Coroutine then
      match value₀.payload with
      | .pCoroutine cid =>
          defineVariableCore s₁ name ty boldness
            (((s₁.coros.get? cid).bind Coroutine.result).getD Value.undefined)
            (some cid)
      | _ => .error (.pyExc "non-coroutine payload under Coroutine tag")
    else defineVariableCore s₁ name ty boldness value₀ none

/-- The assignment case of `visit_BinaryOpExpr` (lines 268-282), entered
when the left value carries a binding back-reference and the operator is
`=`: reject const-tagged bindings, move the binding's current value into
its previous-value slot, install the right value, and, if a mutation
trigger is installed, run its body in a freshly pushed child scope and
pop back to that scope's parent afterwards. -/
def execAssign : Nat → Interp → Nat → Value → Except Err (Value × Interp)
  | 0, _, _, _ => .error .fuel
  | fuel + 1, s, vid, rhs =>
    match s.vars.get? vid with
    | none => .error (.pyExc "invalid variable id")
    | some var =>
      if var.type = .ConstConst ∨ var.type = .ConstConstConst ∨
          var.type = .ConstVar then
        .error (.fatal "Cannot assign to const variable")
      else
        let var' := { var with previous := var.value, value := rhs }
        let s₁ := { s with vars := setAt s.vars vid var' }
        match var.when_mutated with
        | none => .ok (Value.undefined, s₁)
        | some wm => do
            let newId := s₁.scopes.length
            let s₂ := { s₁ with
              scopes := s₁.scopes ++ [Scope.make (some s₁.scope)],
              scope := newId }
            let s₃ ← visitList fuel s₂ wm.body
            -- `self.scope = self.scope.parent` (a `type: ignore` in the
            -- source: the parent of a pushed scope is always present)
            match (s₃.scopes.get? s₃.scope).bind Scope.parent with
            | none => .error (.pyExc "scope parent is None")
            | some p => .ok (Value.undefined, { s₃ with scope := p })

/-- The `Function.call`: an uninverted call of an async function enqueues a
coroutine over a copy of the body and returns a `Coroutine`-typed value;
otherwise push a child scope, bind the parameters, run the body (a single
expression or statement-by-statement with an early stop once the scope's
return value is set), restore the caller scope (the `with scope`
context-manager exit) and return the scope's return value or
`Undefined`. -/
def callFunc : Nat → Interp → Func → List Value → Bool →
    Except Err (Value × Interp)
  | 0, _, _, _, _ => .error .fuel
  | fuel + 1, s, fn, args, awaitResult =>
    if fn.is_async && !awaitResult then
      let cid := s.coros.length
      .ok (.mk .Coroutine (.pCoroutine cid) none,
        { s with coros := s.coros ++ [Coroutine.make fn.body],
                 coroutines := s.coroutines ++ [cid] })
    else do
      let callerScope := s.scope
      let scopeId := s.scopes.length
      let s₁ := { s with
        scopes := s.scopes ++ [Scope.make (some callerScope)],
        scope := scopeId }
      let s₂ ← bindParams s₁ scopeId fn.args args
      if fn.is_single_expr then
        match fn.body with
        | e :: _ => do
            let (v, s₃) ← visit fuel s₂ e
            .ok (v, { s₃ with scope := callerScope })
        | [] => .error (.pyExc "IndexError on an empty body")
      else do
        let s₃ ← visitFnBody fuel s₂ scopeId fn.body
        let s₄ := { s₃ with scope := callerScope }
        match s₄.scopes.get? scopeId with
        | none => .error (.pyExc "invalid scope id")
        | some sc => .ok (sc.return_value.getD Value.undefined, s₄)

/-- Sequential statement evaluation discarding values (the top-level loop
of `__main__.main`, class bodies, mutation-trigger bodies). -/
def visitList : Nat → Interp → List Expr → Except Err Interp
  | 0, _, _ => .error .fuel
  | _ + 1, s, [] => .ok s
  | fuel + 1, s, e :: rest => do
      let (_, s₁) ← visit fuel s e
      visitList fuel s₁ rest

/-- Left-to-right evaluation of an expression list, collecting the values
(call arguments, array literal elements). -/
def visitArgs : Nat → Interp → List Expr → Except Err (List Value × Interp)
  | 0, _, _ => .error .fuel
  | _ + 1, s, [] => .ok ([], s)
  | fuel + 1, s, e :: rest => do
      let (v, s₁) ← visit fuel s e
      let (vs, s₂) ← visitArgs fuel s₁ rest
      .ok (v :: vs, s₂)

/-- The statement loop of `Function.call`: stop early as soon as the
function scope's return value is set (`if scope.return_value: break`). -/
def visitFnBody : Nat → Interp → Nat → List Expr → Except Err Interp
  | 0, _, _, _ => .error .fuel
  | _ + 1, s, _, [] => .ok s
  | fuel + 1, s, scopeId, e :: rest => do
      let (_, s₁) ← visit fuel s e
      match s₁.scopes.get? scopeId with
      | none => .error (.pyExc "invalid scope id")
      | some sc =>
        if sc.return_value.isSome then .ok s₁
        else visitFnBody fuel s₁ scopeId rest

/-- The `Interpreter.execute_pending_coroutines`, iterating over a snapshot of
the queue (`self.coroutines.copy()`): a coroutine marked to skip only
clears its flag; otherwise it pops its next body statement — a bare string
literal is skipped, a `return` evaluates its value, stores the result
(also through the coroutine's `store` back-reference), cancels the rest of
the body and removes the coroutine from the live queue, and any other
statement is evaluated for effect in the current scope. -/
def execPendingGo : Nat → Interp → List Nat → Except Err Interp
  | 0, _, _ => .error .fuel
  | _ + 1, s, [] => .ok s
  | fuel + 1, s, cid :: rest =>
    match s.coros.get? cid with
    | none => .error (.pyExc "invalid coroutine id")
    | some c =>
      if c.skip_current_newline then
        let c' := { c with skip_current_newline := Bool.false }
        execPendingGo fuel { s with coros := setAt s.coros cid c' } rest
      else
        match c.body with
        | [] => execPendingGo fuel s rest
        | pending :: restBody =>
          let s₁ := { s with coros := setAt s.coros cid ({ c with body := restBody }) }
          match pending with
          | .StringExpr _ => execPendingGo fuel s₁ rest
          | .ReturnExpr ve => do
              let (v, s₂) ← visit fuel s₁ ve
              let s₃ :=
                match (s₂.coros.get? cid).bind Coroutine.store with
                | some vidSt =>
                  (match s₂.vars.get? vidSt with
                  | some var =>
                      { s₂ with vars := setAt s₂.vars vidSt ({ var with value := v }) }
                  | none => s₂)
                | none => s₂
              let s₄ :=
                match s₃.coros.get? cid with
                | some c₂ =>
                    let c' := { c₂ with result := some v, body := [] }
                    { s₃ with coros := setAt s₃.coros cid c' }
                | none => s₃
              execPendingGo fuel
                { s₄ with coroutines := removeFirst cid s₄.coroutines } rest
          | _ => do
              let (_, s₂) ← visit fuel s₁ pending
              execPendingGo fuel s₂ rest
end

/-- The `__main__.main`: evaluate every top-level node in order on a fresh
interpreter. -/
def runProgram (fuel : Nat) (filename : String) (prog : List Expr) :
    Except Err Interp :=
  visitList fuel (Interp.init filename) prog

/-- Observation helper: the payload currently stored in the binding that
`name` resolves to from the final current scope (`None` on error or when
unbound). -/
def varPayload (r : Except Err Interp) (name : String) : Option Payload :=
  match r with
  | .error _ => none
  | .ok s =>
    match getVariable s s.scope name with
    | none => none
    | some vid => (s.vars.get? vid).map fun var => var.value.payload

/-- Observation helper: a scope's own variable map in the final state. -/
def scopeVarsOf (r : Except Err Interp) (scopeId : Nat) :
    Option (List (String × Nat)) :=
  match r with
  | .error _ => none
  | .ok s => (s.scopes.get? scopeId).map Scope.vars

/-- Observation helper: the captured-scope index of a class in the final
state. -/
def classScopeOf (r : Except Err Interp) (clsId : Nat) : Option Nat :=
  match r with
  | .error _ => none
  | .ok s => (s.classes.get? clsId).map Class.scope

/-- A one-binding state for witnesses: `name` bound in the root scope to
`Int 1` with the given declaration-type tag and boldness 1. -/
def oneVarState (name : String) (ty : VariableType) : Interp :=
  { scope := 0, filename := "main",
    scopes := [⟨none, [(name, 0)], [], [], none⟩],
    vars := [⟨name, .mk .Int (.pInt 1) none, 1, ty, .mk .Int (.pInt 1) none, none⟩],
    classes := [], coros := [], coroutines := [], exports := [],
    deleted_values := [] }

/-- Observation helper: the previous-value payload of the binding `name`
resolves to. -/
def varPreviousPayload (r : Except Err Interp) (name : String) :
    Option Payload :=
  match r with
  | .error _ => none
  | .ok s =>
    match getVariable s s.scope name with
    | none => none
    | some vid => (s.vars.get? vid).map fun var => var.previous.payload

/-- A witness state: `b` bound in the root scope to `Int 1` (`VarVar`,
boldness 1) with an installed mutation trigger whose body defines a
variable `t`. -/
def whenVarState : Interp :=
  { scope := 0, filename := "main",
    scopes := [⟨none, [("b", 0)], [], [], none⟩],
    vars := [⟨"b", .mk .Int (.pInt 1) none, 1, .VarVar, .mk .Int (.pInt 1) none,
      some ⟨.BinaryOpExpr (.IdentifierExpr "b") (.IntegerExpr 99) .Eq,
        [.VariableExpr "t" (.IntegerExpr 7) .VarVar 1]⟩⟩],
    classes := [], coros := [], coroutines := [], exports := [],
    deleted_values := [] }

/-- The state reached by `class Foo { var var x = 5! } var var o = new
Foo()!` on a fresh interpreter (certified reachable in
`claim8_class_definition_scope`): the member binding `x` sits in the root
scope's own map, the class's captured scope (index 1) is empty, and `o`
holds the sole instance. -/
def classStateC8 : Interp :=
  { scope := 0, filename := "main",
    scopes := [⟨none, [("x", 0), ("o", 1)], [], [("Foo", 0)], none⟩,
               ⟨some 0, [], [], [], none⟩],
    vars := [⟨"x", .mk .Int (.pInt 5) none, 1, .VarVar, .mk .Int (.pInt 5) none, none⟩,
             ⟨"o", .mk .Object (.pObject 0) none, 1, .VarVar, .mk .Object (.pObject 0) none, none⟩],
    classes := [⟨"Foo", 1, Bool.true⟩],
    coros := [], coroutines := [], exports := [], deleted_values := [] }

/-- The `Function` named tuple for `funct g() => 1` (a plain synchronous
function used by the export/import witnesses). -/
def gFunc : Func := ⟨"g", [], [.IntegerExpr 1], Bool.true, Bool.false⟩

/-- A witness state whose file is `"f"` with the function `g` registered
in the root scope. -/
def oneFuncState : Interp :=
  { scope := 0, filename := "f",
    scopes := [⟨none, [], [("g", gFunc)], [], none⟩],
    vars := [], classes := [], coros := [], coroutines := [], exports := [],
    deleted_values := [] }

/-- A witness state whose file is `"f"` whose export table already holds
the function `g` (as written by `export_symbol`), with an empty root
scope. -/
def importFuncState : Interp :=
  { scope := 0, filename := "f",
    scopes := [⟨none, [], [], [], none⟩],
    vars := [], classes := [], coros := [], coroutines := [],
    exports := [("f", [("g", .func gFunc)])],
    deleted_values := [] }

/-- A witness state whose file is `"f"` with the class `K` (no instance
yet, captured scope 0) registered in the root scope at arena index 0. -/
def oneClassState : Interp :=
  { scope := 0, filename := "f",
    scopes := [⟨none, [], [], [("K", 0)], none⟩],
    vars := [], classes := [⟨"K", 0, Bool.false⟩], coros := [],
    coroutines := [], exports := [], deleted_values := [] }

/-- A witness state whose file is `"f"` whose export table already holds
the class `K` (arena index 0, no instance yet), with an empty root scope:
the class object itself lives in the class arena shared with the
exporter. -/
def importClassState : Interp :=
  { scope := 0, filename := "f",
    scopes := [⟨none, [], [], [], none⟩],
    vars := [], classes := [⟨"K", 0, Bool.false⟩], coros := [],
    coroutines := [],
    exports := [("f", [("K", .cls 0)])],
    deleted_values := [] }

/-- The `Function` named tuple for `async funct f() => { return 1 }`. -/
def asyncF : Func := ⟨"f", [], [.ReturnExpr (.IntegerExpr 1)], Bool.false, Bool.true⟩

/-- The state reached by `async funct f() => { return 1 }` followed by
`var var x = f()!` on a fresh interpreter (certified reachable in
`claim6_async_counterexample`): the coroutine is pending with its
skip-first flag set and its `store` back-reference pointing at `x`, and
`x` holds `Undefined`. -/
def asyncStateS2 : Interp :=
  { scope := 0, filename := "main",
    scopes := [⟨none, [("x", 0)], [("f", asyncF)], [], none⟩],
    vars := [⟨"x", Value.undefined, 1, .VarVar, Value.undefined, none⟩],
    classes := [],
    coros := [⟨[.ReturnExpr (.IntegerExpr 1)], none, Bool.true, some 0⟩],
    coroutines := [0], exports := [], deleted_values := [] }

/-- The `asyncStateS2` after one newline boundary crossing: the only effect is
clearing the coroutine's skip-first flag. -/
def asyncStateS3 : Interp :=
  { asyncStateS2 with
    coros := [⟨[.ReturnExpr (.IntegerExpr 1)], none, Bool.false, some 0⟩] }

/-- The `asyncStateS3` after a second newline boundary crossing: the `return`
statement ran, the result `Int 1` was written through the `store`
back-reference into `x`'s slot, and the coroutine was cancelled and
removed from the queue. -/
def asyncStateS4 : Interp :=
  { asyncStateS3 with
    vars := [⟨"x", .mk .Int (.pInt 1) none, 1, .VarVar, Value.undefined, none⟩],
    coros := [⟨[], some (.mk .Int (.pInt 1) none), Bool.false, some 0⟩],
    coroutines := [] }

/- General lemmas -/

theorem Bool3.ofBool_eq_true_iff (x : Bool) :
    Bool3.ofBool x = .true ↔ x = Bool.true := by
  cases x <;> simp [Bool3.ofBool]

theorem enumFrom_length (i : Int) (vs : List Value) :
    (enumFrom i vs).length = vs.length := by
  induction vs generalizing i with
  | nil => rfl
  | cons v rest ih => simp [enumFrom, ih]

theorem lookupArr_enumFrom (k i : Int) (vs : List Value) :
    lookupArr k (enumFrom i vs) =
      if i ≤ k ∧ k < i + vs.length then vs.get? (k - i).toNat else none := by
  induction vs generalizing i with
  | nil => simp [enumFrom, lookupArr]
  | cons v rest ih =>
    simp only [enumFrom, lookupArr, List.length_cons]
    by_cases hk : k = i
    · subst hk
      have : k ≤ k ∧ k < k + ((rest.length : Int) + 1) := by
        constructor
        · exact le_refl k
        · omega
      rw [if_pos rfl, if_pos]
      · simp
      · push_cast
        omega
    · rw [if_neg hk, ih (i + 1)]
      by_cases hrange : i + 1 ≤ k ∧ k < i + 1 + (rest.length : Int)
      · rw [if_pos hrange, if_pos (by push_cast at hrange ⊢; omega)]
        have h1 : (k - i).toNat = (k - (i + 1)).toNat + 1 := by omega
        rw [h1]
        simp
      · rw [if_neg hrange, if_neg]
        intro hc
        apply hrange
        push_cast at hc ⊢
        constructor
        · rcases lt_or_ge i k with h | h
          · omega
          · exfalso
            have : k = i := le_antisymm (by omega) (by omega)
            exact hk this
        · omega

theorem get?_isSome_iff {α : Type} (l : List α) (n : Nat) :
    (l.get? n).isSome ↔ n < l.length := by
  cases h : l.get? n with
  | none =>
    simp only [Option.isSome_none, Bool.false_eq_true, false_iff, not_lt]
    exact List.get?_eq_none.mp h
  | some a =>
    simp only [Option.isSome_some, true_iff]
    obtain ⟨hlt, _⟩ := List.get?_eq_some.mp h
    exact hlt

theorem lookupAssoc_updateAssoc_self {β : Type} (k : String) (v : β)
    (l : List (String × β)) : lookupAssoc k (updateAssoc k v l) = some v := by
  induction l with
  | nil => simp [updateAssoc, lookupAssoc]
  | cons x rest ih =>
    obtain ⟨k', v'⟩ := x
    by_cases h : k = k'
    · simp [updateAssoc, lookupAssoc, h]
    · simp [updateAssoc, lookupAssoc, h, ih]

theorem get?_setAt_self {β : Type} (l : List β) (n : Nat) (b : β)
    (h : n < l.length) : (setAt l n b).get? n = some b := by
  induction l generalizing n with
  | nil => simp at h
  | cons x rest ih =>
    cases n with
    | zero => rfl
    | succ m =>
      show (setAt rest m b).get? m = some b
      exact ih m (by simpa using h)

/-- The `validate` is the identity when the deleted-value set is empty. -/
theorem validate_of_no_deleted (s : Interp) (v : Value)
    (h : s.deleted_values = []) : validate s v = .ok (v, s) := by
  simp [validate, is_deleted_value, h]

/- Claim theorems -/

/-- C1: in `Interpreter.cmp`, the tier-2 comparison `===` evaluates to
false whenever the two operands carry different value types, regardless of
their payloads; the tier-3 comparison `====` is true — when both operands
carry binding back-references — exactly when they reference the identical
binding, and — when neither carries one — exactly when the operands have
the same type and equal payloads. -/
theorem claim1_equality_tiers (a b : Value) :
    (a.type ≠ b.type → cmp a .TripleEq b = .ok .false) ∧
    (∀ i j, a.ref = some i → b.ref = some j →
      (cmp a .QuadEq b = .ok .true ↔ i = j)) ∧
    (a.ref = none → b.ref = none →
      (cmp a .QuadEq b = .ok .true ↔
        (a.type = b.type ∧ pyEqP a.payload b.payload = Bool.true))) := by
  refine ⟨?_, ?_, ?_⟩
  · intro h
    simp [cmp, h]
  · intro i j hi hj
    simp [cmp, hi, hj, Bool3.ofBool_eq_true_iff]
  · intro ha hb
    by_cases h : a.type = b.type
    · simp [cmp, ha, h, Bool3.ofBool_eq_true_iff]
    · simp [cmp, ha, h]

/-- Closed instances of `claim1_equality_tiers` with every hypothesis
discharged at concrete values: an `Int` and a `String` value are never
`===`-equal; two values referencing binding 0 are `====`-equal while
values referencing bindings 0 and 1 are not; two reference-free equal
`Int` values are `====`-equal. -/
theorem claim1_equality_tiers_witness :
    cmp (.mk .Int (.pInt 1) none) .TripleEq (.mk .String (.pStr "1") none) =
      .ok .false ∧
    cmp (.mk .Int (.pInt 1) (some 0)) .QuadEq (.mk .Int (.pInt 2) (some 0)) =
      .ok .true ∧
    cmp (.mk .Int (.pInt 1) (some 0)) .QuadEq (.mk .Int (.pInt 1) (some 1)) ≠
      .ok .true ∧
    cmp (.mk .Int (.pInt 3) none) .QuadEq (.mk .Int (.pInt 3) none) =
      .ok .true := by
  refine ⟨(claim1_equality_tiers (.mk .Int (.pInt 1) none)
      (.mk .String (.pStr "1") none)).1 (by simp [Value.type]), ?_, ?_, ?_⟩
  · exact ((claim1_equality_tiers (.mk .Int (.pInt 1) (some 0))
      (.mk .Int (.pInt 2) (some 0))).2.1 0 0 rfl rfl).2 rfl
  · intro h
    exact absurd (((claim1_equality_tiers (.mk .Int (.pInt 1) (some 0))
      (.mk .Int (.pInt 1) (some 1))).2.1 0 1 rfl rfl).1 h) (by decide)
  · exact ((claim1_equality_tiers (.mk .Int (.pInt 3) none)
      (.mk .Int (.pInt 3) none)).2.2 rfl rfl).2 ⟨rfl, rfl⟩

/-- C10: an array built from an `n`-element literal populates exactly the
indices `-1, 0, ..., n-2`; the `visit_IndexExpr` bounds check accepts the
index `n-1` (it only rejects indices below `-n` or at/above `n`), reading
`n-1` yields `Undefined` rather than an element or an error, and reading
`-1` yields the first element.  The final two conjuncts run the full
evaluator on the two-element literal `[10, 20]`: index `1` evaluates to
`Undefined` and index `-1` to the first element `10`. -/
theorem claim10_array_index_shift (v : Value) (vs : List Value) :
    (∀ k : Int,
      (lookupArr k (arrayInit (v :: vs))).isSome ↔
        (-1 ≤ k ∧ k ≤ ((v :: vs).length : Int) - 2)) ∧
    indexOutOfBounds (arrayInit (v :: vs)).length
      (((v :: vs).length : Int) - 1) = Bool.false ∧
    arrayAt .Any (arrayInit (v :: vs)) (((v :: vs).length : Int) - 1) =
      Value.undefined ∧
    arrayAt .Any (arrayInit (v :: vs)) (-1) = v ∧
    visit 9 (Interp.init "main")
      (.IndexExpr (.ArrayExpr [.IntegerExpr 10, .IntegerExpr 20])
        (.IntegerExpr 1)) =
      .ok (Value.undefined, Interp.init "main") ∧
    visit 9 (Interp.init "main")
      (.IndexExpr (.ArrayExpr [.IntegerExpr 10, .IntegerExpr 20])
        (.UnaryOpExpr (.IntegerExpr 1) .Minus)) =
      .ok (.mk .Int (.pInt 10) none, Interp.init "main") := by
  refine ⟨?_, ?_, ?_, ?_, ?_, ?_⟩
  · intro k
    rw [arrayInit, lookupArr_enumFrom]
    by_cases h : -1 ≤ k ∧ k < -1 + ((v :: vs).length : Int)
    · rw [if_pos h]
      simp only [List.length_cons] at h ⊢
      rw [get?_isSome_iff]
      simp only [List.length_cons]
      omega
    · rw [if_neg h]
      simp only [List.length_cons] at h ⊢
      simp only [Option.isSome_none, Bool.false_eq_true, false_iff, not_and,
        not_le]
      omega
  · rw [arrayInit, indexOutOfBounds, enumFrom_length]
    simp only [List.length_cons, Bool.or_eq_false_iff, decide_eq_false_iff_not]
    omega
  · have hcond : ¬(-1 ≤ (((v :: vs).length : Int) - 1) ∧
        (((v :: vs).length : Int) - 1) < -1 + ((v :: vs).length : Int)) := by
      simp only [List.length_cons]
      omega
    rw [arrayAt, arrayInit, lookupArr_enumFrom, if_neg hcond]
  · have hcond : (-1 : Int) ≤ -1 ∧ (-1 : Int) < -1 + ((v :: vs).length : Int) := by
      simp only [List.length_cons]
      omega
    rw [arrayAt, arrayInit, lookupArr_enumFrom, if_pos hcond]
    rfl
  · rfl
  · rfl

theorem ok_bind {α β : Type} (a : α) (f : α → Except Err β) :
    ((.ok a : Except Err α) >>= f) = f a := rfl

theorem error_bind {α β : Type} (e : Err) (f : α → Except Err β) :
    ((.error e : Except Err α) >>= f) = .error e := rfl

/-- C7 counterexample: with both operands of integer kind, `(-7) / 2`
evaluates to `-4` (Python `//` is floor division), not the `-3` that
truncation toward zero would give — shown both at the arithmetic step of
`visit_BinaryOpExpr` (`binaryOpResult`) and through the full evaluator on
the expression `(-7) / 2`. -/
theorem claim7_division_counterexample :
    binaryOpResult .Div (.mk .Int (.pInt (-7)) none) (.mk .Int (.pInt 2) none) =
      .ok (.mk .Int (.pInt (-4)) none) ∧
    visit 9 (Interp.init "main")
      (.BinaryOpExpr (.UnaryOpExpr (.IntegerExpr 7) .Minus) (.IntegerExpr 2)
        .Div) =
      .ok (.mk .Int (.pInt (-4)) none, Interp.init "main") ∧
    (-4 : Int) ≠ (-3 : Int) := by
  refine ⟨rfl, rfl, by decide⟩

/-- C7 amended: for `/` on two `Int`-typed integer operands, a zero right
operand yields `Undefined` with no error raised, and a nonzero right
operand yields the floor of the exact quotient (`Int.fdiv`, Python's `//`)
— which coincides with truncation toward zero only when the operands'
signs agree.  The final conjunct lifts both cases through `visit` for
pure operand expressions. -/
theorem claim7_division_floor (a b : Int) (ra rb : Option Nat) :
    (b = 0 →
      binaryOpResult .Div (.mk .Int (.pInt a) ra) (.mk .Int (.pInt b) rb) =
        .ok Value.undefined) ∧
    (b ≠ 0 →
      binaryOpResult .Div (.mk .Int (.pInt a) ra) (.mk .Int (.pInt b) rb) =
        .ok (.mk .Int (.pInt (Int.fdiv a b)) none)) ∧
    (∀ fuel s lhsE rhsE,
      s.deleted_values = [] →
      visit fuel s lhsE = .ok (.mk .Int (.pInt a) ra, s) →
      visit fuel s rhsE = .ok (.mk .Int (.pInt b) rb, s) →
      visit (fuel + 2) s (.BinaryOpExpr lhsE rhsE .Div) =
        (if b = 0 then .ok (Value.undefined, s)
         else .ok (.mk .Int (.pInt (Int.fdiv a b)) none, s))) := by
  refine ⟨?_, ?_, ?_⟩
  · intro hb
    subst hb
    simp [binaryOpResult, INTEGER_TYPES, Value.type, Value.payload, pyEqP]
  · intro hb
    simp [binaryOpResult, INTEGER_TYPES, Value.type, Value.payload, pyEqP,
      pyFloorDiv, hb]
  · intro fuel s lhsE rhsE hdel hl hr
    show visit (fuel + 1 + 1) s (.BinaryOpExpr lhsE rhsE .Div) = _
    rw [visit]
    simp only [visitNode]
    rw [hl, ok_bind]
    rw [hr, ok_bind]
    have hidx : (isIndexExpr lhsE && (TokenType.Div == TokenType.Assign)) =
        Bool.false := by
      simp
    rw [hidx]
    simp only [Bool.false_eq_true, if_false]
    cases ra <;> cases rb <;>
      by_cases hb : b = 0 <;>
      simp [binaryOpResult, INTEGER_TYPES, Value.type, Value.payload, pyEqP,
        pyFloorDiv, hb, Value.ref, ok_bind, validate, is_deleted_value, hdel]
    intro h
    exact Expr.noConfusion h

/-- Closed instances of `claim7_division_floor`: `5 / 0` yields `Undefined`
(at the arithmetic step and through the evaluator) and `(-7) / 2` floors
to `-4`. -/
theorem claim7_division_floor_witness :
    binaryOpResult .Div (.mk .Int (.pInt 5) none) (.mk .Int (.pInt 0) none) =
      .ok Value.undefined ∧
    binaryOpResult .Div (.mk .Int (.pInt (-7)) none) (.mk .Int (.pInt 2) none) =
      .ok (.mk .Int (.pInt (-4)) none) ∧
    visit 5 (Interp.init "main")
      (.BinaryOpExpr (.IntegerExpr 5) (.IntegerExpr 0) .Div) =
      .ok (Value.undefined, Interp.init "main") := by
  refine ⟨(claim7_division_floor 5 0 none none).1 rfl, ?_, ?_⟩
  · have h := (claim7_division_floor (-7) 2 none none).2.1 (by decide)
    have hv : Int.fdiv (-7) 2 = -4 := by decide
    rw [hv] at h
    exact h
  · have h := (claim7_division_floor 5 0 none none).2.2 3 (Interp.init "main")
      (.IntegerExpr 5) (.IntegerExpr 0) rfl rfl rfl
    simpa using h

/-- C2: evaluating a direct assignment `name = v` — any non-index left
expression resolving to a value with a binding back-reference — is a fatal
error ("Cannot assign to const variable") when the binding's
declaration-type tag is `ConstConst`, `ConstConstConst` or `ConstVar`,
regardless of the new value; for a `VarVar` or `VarConst` binding with no
mutation trigger installed (the claim's validity proviso) it never raises:
it returns `Undefined` after moving the old value into the previous-value
slot and installing the new one. -/
theorem claim2_const_assignment (fuel : Nat) (s : Interp) (lhsE rhsE : Expr)
    (lv v : Value) (i : Nat) (var : Variable)
    (hnotidx : isIndexExpr lhsE = Bool.false)
    (hdel : s.deleted_values = [])
    (hl : visit fuel s lhsE = .ok (lv, s))
    (href : lv.ref = some i)
    (hvar : s.vars.get? i = some var)
    (hr : visit fuel s rhsE = .ok (v, s)) :
    ((var.type = .ConstConst ∨ var.type = .ConstConstConst ∨
        var.type = .ConstVar) →
      visit (fuel + 2) s (.BinaryOpExpr lhsE rhsE .Assign) =
        .error (.fatal "Cannot assign to const variable")) ∧
    ((var.type = .VarVar ∨ var.type = .VarConst) →
      var.when_mutated = none →
      visit (fuel + 2) s (.BinaryOpExpr lhsE rhsE .Assign) =
        .ok (Value.undefined,
          { s with vars := setAt s.vars i ({ var with previous := var.value, value := v }) })) := by
  cases fuel with
  | zero => rw [visit] at hl; cases hl
  | succ k =>
    constructor
    · intro hty
      show visit (k + 1 + 1 + 1) s _ = _
      rw [visit]
      case _ => simp only [visitNode]
                rw [hl, ok_bind, hr, ok_bind, hnotidx]
                simp only [Bool.false_and, Bool.false_eq_true, if_false, href]
                rw [execAssign, hvar]
                rcases hty with h | h | h <;>
                  simp [h, error_bind]
      case _ => intro h; exact Expr.noConfusion h
    · intro hty hwm
      show visit (k + 1 + 1 + 1) s _ = _
      rw [visit]
      case _ => simp only [visitNode]
                rw [hl, ok_bind, hr, ok_bind, hnotidx]
                simp only [Bool.false_and, Bool.false_eq_true, if_false, href]
                rw [execAssign, hvar]
                rcases hty with h | h <;>
                  simp [h, hwm, ok_bind, validate, is_deleted_value, hdel]
      case _ => intro h; exact Expr.noConfusion h

/-- Closed instances of `claim2_const_assignment`: assigning to a
`ConstConst`-tagged binding is the fatal const error, assigning to a
`VarVar`-tagged binding succeeds. -/
theorem claim2_const_assignment_witness :
    visit 5 (oneVarState "c" .ConstConst)
      (.BinaryOpExpr (.IdentifierExpr "c") (.StringExpr "v") .Assign) =
      .error (.fatal "Cannot assign to const variable") ∧
    visit 5 (oneVarState "b" .VarVar)
      (.BinaryOpExpr (.IdentifierExpr "b") (.StringExpr "v") .Assign) =
      .ok (Value.undefined,
        { oneVarState "b" .VarVar with
          vars := [⟨"b", .mk .String (.pStr "v") none, 1, .VarVar,
            .mk .Int (.pInt 1) none, none⟩] }) := by
  constructor
  · exact (claim2_const_assignment 3 (oneVarState "c" .ConstConst)
      (.IdentifierExpr "c") (.StringExpr "v")
      (.mk .Int (.pInt 1) (some 0)) (.mk .String (.pStr "v") none) 0
      ⟨"c", .mk .Int (.pInt 1) none, 1, .ConstConst,
        .mk .Int (.pInt 1) none, none⟩
      rfl rfl rfl rfl rfl rfl).1 (Or.inl rfl)
  · exact (claim2_const_assignment 3 (oneVarState "b" .VarVar)
      (.IdentifierExpr "b") (.StringExpr "v")
      (.mk .Int (.pInt 1) (some 0)) (.mk .String (.pStr "v") none) 0
      ⟨"b", .mk .Int (.pInt 1) none, 1, .VarVar,
        .mk .Int (.pInt 1) none, none⟩
      rfl rfl rfl rfl rfl rfl).2 (Or.inl rfl) rfl

/-- C3: a successful assignment `b = v` moves the value `b` held
immediately before the assignment into `b`'s previous-value slot and
installs `v` as `b`'s current value (first conjunct: the updated binding
as stored in the variable arena).  If no mutation trigger is installed the
expression returns `Undefined` with exactly that update (second conjunct).
If a trigger is installed, its body is run synchronously — from the state
holding the update — in a freshly pushed child scope of the current scope,
and the scope is popped to its parent before the assignment expression
returns (third conjunct, which mirrors the trigger run of
`visit_BinaryOpExpr` lines 275-280 including the final deleted-value
validation of the returned `Undefined`). -/
theorem claim3_assignment_updates (fuel : Nat) (s : Interp)
    (lhsE rhsE : Expr) (lv v : Value) (i : Nat) (var : Variable)
    (hnotidx : isIndexExpr lhsE = Bool.false)
    (hdel : s.deleted_values = [])
    (hl : visit (fuel + 1) s lhsE = .ok (lv, s))
    (href : lv.ref = some i)
    (hvar : s.vars.get? i = some var)
    (hi : i < s.vars.length)
    (hty : var.type = .VarVar ∨ var.type = .VarConst)
    (hr : visit (fuel + 1) s rhsE = .ok (v, s)) :
    ((setAt s.vars i ({ var with previous := var.value, value := v })).get? i =
        some ({ var with previous := var.value, value := v }) ∧
      ({ var with previous := var.value, value := v }).previous = var.value ∧
      ({ var with previous := var.value, value := v }).value = v) ∧
    (var.when_mutated = none →
      visit (fuel + 3) s (.BinaryOpExpr lhsE rhsE .Assign) =
        .ok (Value.undefined,
          { s with vars := setAt s.vars i ({ var with previous := var.value, value := v }) })) ∧
    (∀ wm, var.when_mutated = some wm →
      visit (fuel + 3) s (.BinaryOpExpr lhsE rhsE .Assign) =
        (do
          let s₃ ← visitList fuel
            ({ s with
               vars := setAt s.vars i ({ var with previous := var.value, value := v }),
               scopes := s.scopes ++ [Scope.make (some s.scope)],
               scope := s.scopes.length })
            wm.body
          match (s₃.scopes.get? s₃.scope).bind Scope.parent with
          | none => (.error (.pyExc "scope parent is None") : Except Err (Value × Interp))
          | some p => validate { s₃ with scope := p } Value.undefined)) := by
  have hconst : ¬(var.type = .ConstConst ∨ var.type = .ConstConstConst ∨
      var.type = .ConstVar) := by
    rcases hty with h | h <;> simp [h]
  refine ⟨⟨get?_setAt_self s.vars i _ hi, rfl, rfl⟩, ?_, ?_⟩
  · intro hwm
    show visit (fuel + 1 + 1 + 1) s _ = _
    rw [visit]
    case _ => simp only [visitNode]
              rw [hl, ok_bind, hr, ok_bind, hnotidx]
              simp only [Bool.false_and, Bool.false_eq_true, if_false, href]
              rw [execAssign, hvar]
              simp [hconst, hwm, ok_bind, validate, is_deleted_value, hdel]
    case _ => intro h; exact Expr.noConfusion h
  · intro wm hwm
    show visit (fuel + 1 + 1 + 1) s _ = _
    rw [visit]
    case _ => simp only [visitNode]
              rw [hl, ok_bind, hr, ok_bind, hnotidx]
              simp only [Bool.false_and, Bool.false_eq_true, if_false, href]
              rw [execAssign, hvar]
              simp only [hconst, if_false, hwm]
              cases hvl : visitList fuel
                  ({ s with
                     vars := setAt s.vars i ⟨var.name, v, var.boldness, var.type, var.value, some wm⟩,
                     scopes := s.scopes ++ [Scope.make (some s.scope)],
                     scope := s.scopes.length }) wm.body with
              | error e => simp [hvl, error_bind]
              | ok s₃ =>
                  simp only [hvl, ok_bind]
                  cases hp : (s₃.scopes.get? s₃.scope).bind Scope.parent with
                  | none => simp [hp, error_bind]
                  | some p => simp [hp, ok_bind, validate]
    case _ => intro h; exact Expr.noConfusion h

/-- Closed instance of `claim3_assignment_updates` at `whenVarState`
(binding `b` holding `Int 1` with a trigger whose body defines `t`): after
`b = "v"`, the binding holds the string and its previous-value slot holds
`Int 1`; the trigger body ran in a freshly pushed child scope (the arena
holds the new scope and the `t` binding it received), and that scope was
popped, so the current scope is the root again and `t` is not visible from
it. -/
theorem claim3_assignment_updates_witness :
    varPayload (Except.map Prod.snd (visit 9 whenVarState
      (.BinaryOpExpr (.IdentifierExpr "b") (.StringExpr "v") .Assign))) "b" =
      some (.pStr "v") ∧
    varPreviousPayload (Except.map Prod.snd (visit 9 whenVarState
      (.BinaryOpExpr (.IdentifierExpr "b") (.StringExpr "v") .Assign))) "b" =
      some (.pInt 1) ∧
    varPayload (Except.map Prod.snd (visit 9 whenVarState
      (.BinaryOpExpr (.IdentifierExpr "b") (.StringExpr "v") .Assign))) "t" =
      none ∧
    Except.map (fun p => p.2.scope) (visit 9 whenVarState
      (.BinaryOpExpr (.IdentifierExpr "b") (.StringExpr "v") .Assign)) =
      .ok 0 ∧
    Except.map (fun p => p.2.scopes.length) (visit 9 whenVarState
      (.BinaryOpExpr (.IdentifierExpr "b") (.StringExpr "v") .Assign)) =
      .ok 2 := by
  have h := (claim3_assignment_updates 6 whenVarState
      (.IdentifierExpr "b") (.StringExpr "v")
      (.mk .Int (.pInt 1) (some 0)) (.mk .String (.pStr "v") none) 0
      ⟨"b", .mk .Int (.pInt 1) none, 1, .VarVar, .mk .Int (.pInt 1) none,
        some ⟨.BinaryOpExpr (.IdentifierExpr "b") (.IntegerExpr 99) .Eq,
          [.VariableExpr "t" (.IntegerExpr 7) .VarVar 1]⟩⟩
      rfl rfl rfl rfl rfl (by decide) (Or.inl rfl) rfl).2.2
      ⟨.BinaryOpExpr (.IdentifierExpr "b") (.IntegerExpr 99) .Eq,
        [.VariableExpr "t" (.IntegerExpr 7) .VarVar 1]⟩ rfl
  refine ⟨?_, ?_, ?_, ?_, ?_⟩ <;> rw [h] <;> rfl

/-- C4 counterexample: a binding named `5` that lives in a *parent* scope
does not shadow the literal — `visit_IntegerExpr` consults only the
current scope's own map (`str(expr.value) in self.scope.variables`).  In
`var var 5 = "hi"!` followed by a function whose body returns the literal
`5`, calling the function yields the integer `5`, not `"hi"` (the call
body runs in a child scope whose own map does not contain `"5"`), contrary
to the claim's "anywhere in the current scope chain".  The last conjunct
shows the top-level rebinding (where `"5"` *is* in the current scope's own
map) for contrast. -/
theorem claim4_literal_scope_counterexample :
    varPayload (runProgram 20 "main"
      [.VariableExpr "5" (.StringExpr "hi") .VarVar 1,
       .FunctionExpr "f" [] [.ReturnExpr (.IntegerExpr 5)] Bool.false Bool.false,
       .VariableExpr "y" (.CallExpr (.IdentifierExpr "f") []) .VarVar 1]) "y" =
      some (.pInt 5) ∧
    (Payload.pInt 5 ≠ .pStr "hi") ∧
    varPayload (runProgram 20 "main"
      [.VariableExpr "5" (.StringExpr "hi") .VarVar 1,
       .VariableExpr "z" (.IntegerExpr 5) .VarVar 1]) "z" =
      some (.pStr "hi") := by
  refine ⟨rfl, by simp, rfl⟩

/-- C4 amended: an integer literal evaluates to a binding's current value
(with back-reference) exactly when its decimal string form is a key of the
**current (innermost) scope's own** variable map; otherwise — including
when a binding of that name exists only in an outer scope of the chain —
it evaluates to the integer itself. -/
theorem claim4_literal_rebinding (fuel : Nat) (s : Interp) (n : Int)
    (sc : Scope)
    (hdel : s.deleted_values = [])
    (hsc : s.scopes.get? s.scope = some sc) :
    (∀ vid var, lookupAssoc (toString n) sc.vars = some vid →
      s.vars.get? vid = some var →
      visit (fuel + 2) s (.IntegerExpr n) = .ok (Value.with_ref vid var, s)) ∧
    (lookupAssoc (toString n) sc.vars = none →
      visit (fuel + 2) s (.IntegerExpr n) = .ok (.mk .Int (.pInt n) none, s)) := by
  constructor
  · intro vid var hlook hv
    show visit (fuel + 1 + 1) s _ = _
    rw [visit]
    case _ => simp only [visitNode]
              rw [hsc]
              simp only [hlook, hv, ok_bind]
              exact validate_of_no_deleted s _ hdel
    case _ => intro h; exact Expr.noConfusion h
  · intro hlook
    show visit (fuel + 1 + 1) s _ = _
    rw [visit]
    case _ => simp only [visitNode]
              rw [hsc]
              simp only [hlook, ok_bind]
              exact validate_of_no_deleted s _ hdel
    case _ => intro h; exact Expr.noConfusion h

/-- Closed instances of `claim4_literal_rebinding`: with `5` bound in the
current scope's own map (to `Int 1`), the literal `5` evaluates to that
binding's value with a back-reference; on a fresh interpreter it evaluates
to the plain integer. -/
theorem claim4_literal_rebinding_witness :
    visit 5 (oneVarState "5" .VarVar) (.IntegerExpr 5) =
      .ok (.mk .Int (.pInt 1) (some 0), oneVarState "5" .VarVar) ∧
    visit 5 (Interp.init "main") (.IntegerExpr 5) =
      .ok (.mk .Int (.pInt 5) none, Interp.init "main") := by
  constructor
  · exact (claim4_literal_rebinding 3 (oneVarState "5" .VarVar) 5
      ⟨none, [("5", 0)], [], [], none⟩ rfl rfl).1 0
      ⟨"5", .mk .Int (.pInt 1) none, 1, .VarVar, .mk .Int (.pInt 1) none, none⟩
      rfl rfl
  · exact (claim4_literal_rebinding 3 (Interp.init "main") 5
      (Scope.make none) rfl rfl).2 rfl

/-- C5 counterexample: a redeclaration whose boldness **equals** the
existing binding's is *not* ignored — `visit_VariableExpr` only ignores
when the existing boldness is strictly greater.  After
`var var x = 1! var var x = 2!` (both boldness 1) the binding holds `2`,
while the claim ("not exceeding ... silently ignored") predicts `1`. -/
theorem claim5_boldness_counterexample :
    varPayload (runProgram 20 "main"
      [.VariableExpr "x" (.IntegerExpr 1) .VarVar 1,
       .VariableExpr "x" (.IntegerExpr 2) .VarVar 1]) "x" = some (.pInt 2) ∧
    some (Payload.pInt 2) ≠ some (Payload.pInt 1) := by
  refine ⟨rfl, by simp⟩

/-- C5 amended: a redeclaration is silently ignored — its value expression
is not even evaluated and the state is unchanged — exactly when the
existing binding's boldness is **strictly greater** than the new
declaration's; otherwise (including at equal boldness) the name is rebound
in the current scope to a fresh binding holding the new value. -/
theorem claim5_boldness_gate (fuel : Nat) (s : Interp) (name : String)
    (valueE : Expr) (ty : VariableType) (boldness : Int) (vid : Nat)
    (var : Variable) (sc : Scope)
    (hdel : s.deleted_values = [])
    (hvar : getVariable s s.scope name = some vid)
    (hv : s.vars.get? vid = some var)
    (hsc : s.scopes.get? s.scope = some sc) :
    (var.boldness > boldness →
      visit (fuel + 3) s (.VariableExpr name valueE ty boldness) =
        .ok (Value.undefined, s)) ∧
    (¬(var.boldness > boldness) → ∀ v,
      visit fuel s valueE = .ok (v, s) → v.type ≠ .Coroutine →
      visit (fuel + 3) s (.VariableExpr name valueE ty boldness) =
        .ok (Value.undefined,
          { s with
            vars := s.vars ++ [Variable.make name v boldness ty],
            scopes := setAt s.scopes s.scope ({ sc with vars := updateAssoc name s.vars.length sc.vars }) }) ∧
      lookupAssoc name (updateAssoc name s.vars.length sc.vars) =
        some s.vars.length ∧
      (s.vars ++ [Variable.make name v boldness ty]).get? s.vars.length =
        some (Variable.make name v boldness ty)) := by
  constructor
  · intro hb
    show visit (fuel + 2 + 1) s _ = _
    rw [visit]
    case _ => simp only [visitNode]
              rw [hvar]
              simp only [hv]
              rw [if_pos hb]
              simp only [ok_bind]
              exact validate_of_no_deleted s _ hdel
    case _ => intro h; exact Expr.noConfusion h
  · intro hb v hval hcoro
    refine ⟨?_, lookupAssoc_updateAssoc_self _ _ _, List.get?_concat_length _ _⟩
    show visit (fuel + 2 + 1) s _ = _
    rw [visit]
    case _ => simp only [visitNode]
              rw [hvar]
              simp only [hv]
              rw [if_neg hb]
              rw [defineVariable, hval, ok_bind]
              simp only [hcoro, ite_false, if_false, defineVariableCore, hsc,
                ok_bind]
              exact validate_of_no_deleted _ _ hdel
    case _ => intro h; exact Expr.noConfusion h

/-- Closed instances of `claim5_boldness_gate` at a binding of boldness 1:
a boldness-0 redeclaration is ignored with the state untouched (its value
expression never evaluated), while a boldness-1 (equal) redeclaration
rebinds the name to the new value. -/
theorem claim5_boldness_gate_witness :
    visit 5 (oneVarState "x" .VarVar)
      (.VariableExpr "x" (.StringExpr "no") .VarVar 0) =
      .ok (Value.undefined, oneVarState "x" .VarVar) ∧
    visit 5 (oneVarState "x" .VarVar)
      (.VariableExpr "x" (.IntegerExpr 7) .VarVar 1) =
      .ok (Value.undefined,
        { oneVarState "x" .VarVar with
          vars := (oneVarState "x" .VarVar).vars ++ [Variable.make "x" (.mk .Int (.pInt 7) none) 1 .VarVar],
          scopes := [⟨none, [("x", 1)], [], [], none⟩] }) := by
  constructor
  · exact (claim5_boldness_gate 2 (oneVarState "x" .VarVar) "x"
      (.StringExpr "no") .VarVar 0 0
      ⟨"x", .mk .Int (.pInt 1) none, 1, .VarVar, .mk .Int (.pInt 1) none, none⟩
      ⟨none, [("x", 0)], [], [], none⟩ rfl rfl rfl rfl).1 (by decide)
  · exact ((claim5_boldness_gate 2 (oneVarState "x" .VarVar) "x"
      (.IntegerExpr 7) .VarVar 1 0
      ⟨"x", .mk .Int (.pInt 1) none, 1, .VarVar, .mk .Int (.pInt 1) none, none⟩
      ⟨none, [("x", 0)], [], [], none⟩ rfl rfl rfl rfl).2 (by decide)
      (.mk .Int (.pInt 7) none) rfl (by simp [Value.type])).1

/-- C8 counterexample: evaluating `class Foo { var var x = 5! }` on a
fresh interpreter leaves the member binding `x` in the ENCLOSING (root)
scope's own variable map, while the class's captured scope (arena index 1)
ends with an empty own map — `visit_ClassExpr` never switches the current
scope to the new child scope (`Scope.__enter__` is a no-op), contrary to
the claim's "into a newly created captured child scope ... (not into the
enclosing scope)". -/
theorem claim8_class_scope_counterexample :
    scopeVarsOf (runProgram 20 "main"
      [.ClassExpr "Foo" [.VariableExpr "x" (.IntegerExpr 5) .VarVar 1]]) 0 =
      some [("x", 0)] ∧
    scopeVarsOf (runProgram 20 "main"
      [.ClassExpr "Foo" [.VariableExpr "x" (.IntegerExpr 5) .VarVar 1]]) 1 =
      some [] ∧
    classScopeOf (runProgram 20 "main"
      [.ClassExpr "Foo" [.VariableExpr "x" (.IntegerExpr 5) .VarVar 1]]) 0 =
      some 1 ∧
    ([("x", 0)] : List (String × Nat)) ≠ [] := by
  refine ⟨rfl, rfl, rfl, by simp⟩

/-- C8 amended: evaluating a class definition evaluates its member
statements exactly once, at class-definition time, but **in the enclosing
scope**: the interpreter's current-scope field is left untouched while the
body runs (first conjunct, the evaluation equation — the state handed to
the body still has `scope := s.scope`, and the captured scope is allocated
empty at index `s.scopes.length` with the enclosing scope as parent,
never entered).  Attribute access on an instance resolves names starting
from that captured scope and reaches the leaked members through its parent
chain (remaining conjuncts: `class Foo { var var x = 5! } var var o = new
Foo()!` reaches `classStateC8`, whose captured scope's own map is empty,
and evaluating `o.x` there yields the member's value `Int 5` with a
back-reference). -/
theorem claim8_class_definition_scope (fuel : Nat) (s : Interp)
    (name : String) (body : List Expr) :
    (visit (fuel + 2) s (.ClassExpr name body) =
      (do
        let s₂ ← visitList fuel
          ({ s with scopes := s.scopes ++ [Scope.make (some s.scope)] }) body
        let s₃ :=
          match (s₂.scopes.get? s.scopes.length).bind Scope.parent with
          | some p => { s₂ with scope := p }
          | none => s₂
        match s₃.scopes.get? s₃.scope with
        | none => (.error (.pyExc "invalid scope id") : Except Err (Value × Interp))
        | some sc =>
            validate
              { s₃ with
                classes := s₃.classes ++ [⟨name, s.scopes.length, Bool.false⟩],
                scopes := setAt s₃.scopes s₃.scope ({ sc with classes := updateAssoc name s₃.classes.length sc.classes }) }
              Value.undefined)) ∧
    runProgram 12 "main"
      [.ClassExpr "Foo" [.VariableExpr "x" (.IntegerExpr 5) .VarVar 1],
       .VariableExpr "o" (.NewExpr "Foo" []) .VarVar 1] = .ok classStateC8 ∧
    scopeVarsOf (.ok classStateC8) 1 = some [] ∧
    visit 9 classStateC8 (.AttributeExpr (.IdentifierExpr "o") "x") =
      .ok (.mk .Int (.pInt 5) (some 0), classStateC8) := by
  refine ⟨?_, rfl, rfl, rfl⟩
  show visit (fuel + 1 + 1) s _ = _
  rw [visit]
  case _ =>
    simp only [visitNode]
    cases hvl : visitList fuel
        ({ s with scopes := s.scopes ++ [Scope.make (some s.scope)] }) body with
    | error e => simp [hvl, error_bind]
    | ok s₂ =>
      simp only [hvl, ok_bind]
      cases hp : (s₂.scopes.get? s.scopes.length).bind Scope.parent with
      | none =>
        simp only [hp]
        cases hsc : s₂.scopes.get? s₂.scope with
        | none => simp [hsc, error_bind]
        | some sc => simp [hsc, ok_bind, validate]
      | some p =>
        simp only [hp]
        cases hsc : s₂.scopes.get? p with
        | none => simp [hsc, error_bind]
        | some sc => simp [hsc, ok_bind, validate]
  case _ => intro h; exact Expr.noConfusion h

/-- C9: for each of the three symbol kinds `visit_ExportExpr` can resolve
— a variable binding, a function, a class, tried in that order — the
export stores the very object the exporter's scope-chain lookup produced
under the `("f", x)` key of the export table, and `import x` evaluated
while the current file is `"f"` installs that same object into the
current scope's corresponding map.  Variables and classes are mutable and
held by arena index, so exporter and importer share one object: a
mutation through either alias (a binding assignment; a class's
`has_instance` guard flip) is a write to the same arena slot and is
observed through the other.  Functions are immutable named tuples and
the import installs the exported tuple itself. -/
theorem claim9_export_import_roundtrip (fuel : Nat) (s : Interp)
    (x f : String)
    (hdel : s.deleted_values = []) :
    (∀ (vid : Nat) (var : Variable),
      getVariable s s.scope x = some vid →
      s.vars.get? vid = some var →
      var.name = x →
      (visit (fuel + 2) s (.ExportExpr x f) =
        .ok (Value.undefined, exportSymbol s (.var vid) x f) ∧
       lookupAssoc x ((lookupAssoc f (exportSymbol s (.var vid) x f).exports).getD []) =
         some (.var vid)) ∧
      (∀ (t : Interp) (tsc : Scope),
        t.filename = f →
        t.deleted_values = [] →
        lookupAssoc x ((lookupAssoc f t.exports).getD []) =
          some (ExportEntry.var vid) →
        t.scopes.get? t.scope = some tsc →
        t.vars.get? vid = some var →
        visit (fuel + 2) t (.ImportExpr x) =
          .ok (Value.undefined,
            { t with scopes := setAt t.scopes t.scope ({ tsc with vars := updateAssoc x vid tsc.vars }) }) ∧
        lookupAssoc x (updateAssoc x vid tsc.vars) = some vid)) ∧
    (∀ (fn : Func),
      getVariable s s.scope x = none →
      getFunction s s.scope x = some fn →
      fn.name = x →
      (visit (fuel + 2) s (.ExportExpr x f) =
        .ok (Value.undefined, exportSymbol s (.func fn) x f) ∧
       lookupAssoc x ((lookupAssoc f (exportSymbol s (.func fn) x f).exports).getD []) =
         some (.func fn)) ∧
      (∀ (t : Interp) (tsc : Scope),
        t.filename = f →
        t.deleted_values = [] →
        lookupAssoc x ((lookupAssoc f t.exports).getD []) =
          some (ExportEntry.func fn) →
        t.scopes.get? t.scope = some tsc →
        visit (fuel + 2) t (.ImportExpr x) =
          .ok (Value.undefined,
            { t with scopes := setAt t.scopes t.scope ({ tsc with functions := updateAssoc x fn tsc.functions }) }) ∧
        lookupAssoc x (updateAssoc x fn tsc.functions) = some fn)) ∧
    (∀ (cid : Nat) (cls : Class),
      getVariable s s.scope x = none →
      getFunction s s.scope x = none →
      getClass s s.scope x = some cid →
      s.classes.get? cid = some cls →
      cls.name = x →
      (visit (fuel + 2) s (.ExportExpr x f) =
        .ok (Value.undefined, exportSymbol s (.cls cid) x f) ∧
       lookupAssoc x ((lookupAssoc f (exportSymbol s (.cls cid) x f).exports).getD []) =
         some (.cls cid)) ∧
      (∀ (t : Interp) (tsc : Scope),
        t.filename = f →
        t.deleted_values = [] →
        lookupAssoc x ((lookupAssoc f t.exports).getD []) =
          some (ExportEntry.cls cid) →
        t.scopes.get? t.scope = some tsc →
        t.classes.get? cid = some cls →
        visit (fuel + 2) t (.ImportExpr x) =
          .ok (Value.undefined,
            { t with scopes := setAt t.scopes t.scope ({ tsc with classes := updateAssoc x cid tsc.classes }) }) ∧
        lookupAssoc x (updateAssoc x cid tsc.classes) = some cid)) := by
  refine ⟨?_, ?_, ?_⟩
  · intro vid var hvar hv hname
    constructor
    · constructor
      · show visit (fuel + 1 + 1) s _ = _
        rw [visit]
        case _ => simp only [visitNode]
                  rw [hvar]
                  simp only [ok_bind]
                  exact validate_of_no_deleted _ _ hdel
        case _ => intro h; exact Expr.noConfusion h
      · simp only [exportSymbol, lookupAssoc_updateAssoc_self, Option.getD_some]
    · intro t tsc htf htdel hexp htsc htv
      constructor
      · show visit (fuel + 1 + 1) t _ = _
        rw [visit]
        case _ => simp only [visitNode]
                  simp only [htf, hexp, htsc, htv, hname, ok_bind]
                  exact validate_of_no_deleted _ _ htdel
        case _ => intro h; exact Expr.noConfusion h
      · exact lookupAssoc_updateAssoc_self _ _ _
  · intro fn hvn hfn hfname
    constructor
    · constructor
      · show visit (fuel + 1 + 1) s _ = _
        rw [visit]
        case _ => simp only [visitNode]
                  simp only [hvn, hfn, ok_bind]
                  exact validate_of_no_deleted _ _ hdel
        case _ => intro h; exact Expr.noConfusion h
      · simp only [exportSymbol, lookupAssoc_updateAssoc_self, Option.getD_some]
    · intro t tsc htf htdel hexp htsc
      constructor
      · show visit (fuel + 1 + 1) t _ = _
        rw [visit]
        case _ => simp only [visitNode]
                  simp only [htf, hexp, htsc, hfname, ok_bind]
                  exact validate_of_no_deleted _ _ htdel
        case _ => intro h; exact Expr.noConfusion h
      · exact lookupAssoc_updateAssoc_self _ _ _
  · intro cid cls hvn hfn hcls hca hcname
    constructor
    · constructor
      · show visit (fuel + 1 + 1) s _ = _
        rw [visit]
        case _ => simp only [visitNode]
                  simp only [hvn, hfn, hcls, ok_bind]
                  exact validate_of_no_deleted _ _ hdel
        case _ => intro h; exact Expr.noConfusion h
      · simp only [exportSymbol, lookupAssoc_updateAssoc_self, Option.getD_some]
    · intro t tsc htf htdel hexp htsc htc
      constructor
      · show visit (fuel + 1 + 1) t _ = _
        rw [visit]
        case _ => simp only [visitNode]
                  simp only [htf, hexp, htsc, htc, hcname, ok_bind]
                  exact validate_of_no_deleted _ _ htdel
        case _ => intro h; exact Expr.noConfusion h
      · exact lookupAssoc_updateAssoc_self _ _ _

/-- Closed instances of `claim9_export_import_roundtrip`, one per symbol
kind, each hypothesis discharged at concrete states.  Variable: export
then import leave the scope's `x` entry at the exporter's arena index 0.
Function: exporting `g` stores the looked-up named tuple and importing it
installs the same tuple.  Class: exporting `K` stores arena index 0,
and importing it installs that index; the last two conjuncts evaluate
`new K()` twice through the imported alias — the first instantiation
flips the shared `has_instance` guard in the arena slot both aliases
reference, so the second is the fatal single-instance error. -/
theorem claim9_export_import_roundtrip_witness :
    visit 5 ({ oneVarState "x" .VarVar with filename := "f" })
      (.ExportExpr "x" "f") =
      .ok (Value.undefined,
        exportSymbol ({ oneVarState "x" .VarVar with filename := "f" })
          (.var 0) "x" "f") ∧
    visit 5 (exportSymbol ({ oneVarState "x" .VarVar with filename := "f" })
        (.var 0) "x" "f") (.ImportExpr "x") =
      .ok (Value.undefined,
        { exportSymbol ({ oneVarState "x" .VarVar with filename := "f" })
            (.var 0) "x" "f" with
          scopes := [⟨none, [("x", 0)], [], [], none⟩] }) ∧
    lookupAssoc "x"
      (updateAssoc "x" 0 (⟨none, [("x", 0)], [], [], none⟩ : Scope).vars) =
      some 0 ∧
    visit 5 oneFuncState (.ExportExpr "g" "f") =
      .ok (Value.undefined, exportSymbol oneFuncState (.func gFunc) "g" "f") ∧
    visit 5 importFuncState (.ImportExpr "g") =
      .ok (Value.undefined,
        { importFuncState with
          scopes := [⟨none, [], [("g", gFunc)], [], none⟩] }) ∧
    visit 5 oneClassState (.ExportExpr "K" "f") =
      .ok (Value.undefined, exportSymbol oneClassState (.cls 0) "K" "f") ∧
    visit 5 importClassState (.ImportExpr "K") =
      .ok (Value.undefined,
        { importClassState with
          scopes := [⟨none, [], [], [("K", 0)], none⟩] }) ∧
    visit 5 ({ importClassState with scopes := [⟨none, [], [], [("K", 0)], none⟩] })
      (.NewExpr "K" []) =
      .ok (.mk .Object (.pObject 0) none,
        { importClassState with
          scopes := [⟨none, [], [], [("K", 0)], none⟩],
          classes := [⟨"K", 0, Bool.true⟩] }) ∧
    visit 5 ({ importClassState with
        scopes := [⟨none, [], [], [("K", 0)], none⟩],
        classes := [⟨"K", 0, Bool.true⟩] })
      (.NewExpr "K" []) =
      .error (.fatal "Cant have more than one K instance!") := by
  have h := (claim9_export_import_roundtrip 3
      ({ oneVarState "x" .VarVar with filename := "f" }) "x" "f" rfl).1 0
    ⟨"x", .mk .Int (.pInt 1) none, 1, .VarVar, .mk .Int (.pInt 1) none, none⟩
    rfl rfl rfl
  have h2 := h.2 (exportSymbol ({ oneVarState "x" .VarVar with filename := "f" })
      (.var 0) "x" "f")
    ⟨none, [("x", 0)], [], [], none⟩ rfl rfl rfl rfl rfl
  have hf := (claim9_export_import_roundtrip 3 oneFuncState "g" "f" rfl).2.1
    gFunc rfl rfl rfl
  have hf2 := hf.2 importFuncState ⟨none, [], [], [], none⟩ rfl rfl rfl rfl
  have hc := (claim9_export_import_roundtrip 3 oneClassState "K" "f" rfl).2.2 0
    ⟨"K", 0, Bool.false⟩ rfl rfl rfl rfl rfl
  have hc2 := hc.2 importClassState ⟨none, [], [], [], none⟩ rfl rfl rfl rfl rfl
  exact ⟨h.1.1, h2.1, h2.2, hf.1.1, hf2.1, hc.1.1, hc2.1, rfl, rfl⟩

/-- C6 counterexample: for `async funct f() => { return 1 }` and
`var var x = f()!` (no `await`), after ONE newline boundary crossing the
variable still holds `Undefined` — the coroutine is created with
`skip_current_newline = True`, so its first boundary crossing only clears
that flag and runs no step — hence printing `x` after one crossing prints
`undefined`, not `1` as the claim states.  (The `Coroutine` value kind
this run passes through is modelled from the spec; see `ValueType`.) -/
theorem claim6_async_counterexample :
    runProgram 9 "main"
      [.FunctionExpr "f" [] [.ReturnExpr (.IntegerExpr 1)] Bool.false Bool.true,
       .VariableExpr "x" (.CallExpr (.IdentifierExpr "f") []) .VarVar 1] =
      .ok asyncStateS2 ∧
    visit 8 asyncStateS2 .NewlineExpr = .ok (Value.undefined, asyncStateS3) ∧
    varPayload (.ok asyncStateS3) "x" = some .pNone ∧
    some Payload.pNone ≠ some (Payload.pInt 1) := by
  refine ⟨rfl, rfl, rfl, by simp⟩

/-- C6 amended: binding the uninverted call's result and printing before
any newline boundary crossing prints `undefined`; after ONE crossing it
still prints `undefined` (the first crossing only clears the coroutine's
skip-first flag, so it runs no step on the boundary after the one that
created it); after a SECOND crossing the coroutine's `return 1` has run
and its result has been written into the variable slot, so printing gives
`1`. -/
theorem claim6_async_two_crossings :
    runProgram 9 "main"
      [.FunctionExpr "f" [] [.ReturnExpr (.IntegerExpr 1)] Bool.false Bool.true,
       .VariableExpr "x" (.CallExpr (.IdentifierExpr "f") []) .VarVar 1] =
      .ok asyncStateS2 ∧
    varPayload (.ok asyncStateS2) "x" = some .pNone ∧
    visit 8 asyncStateS2 .NewlineExpr = .ok (Value.undefined, asyncStateS3) ∧
    varPayload (.ok asyncStateS3) "x" = some .pNone ∧
    visit 8 asyncStateS3 .NewlineExpr = .ok (Value.undefined, asyncStateS4) ∧
    varPayload (.ok asyncStateS4) "x" = some (.pInt 1) := by
  refine ⟨rfl, rfl, rfl, rfl, rfl, rfl⟩

end DB